import Mathlib

/-
Verification of the datalad-slurm core against its specification.

The definitions below are a shallow embedding of the Python sources
(datalad_slurm/schedule.py, finish.py, reschedule.py, common.py).
Pure string and list manipulating functions are translated directly,
with Python strings modelled as `List Char`; the sqlite-backed job
ledger is modelled as an explicit list of rows threaded through the
operations, and the external collaborators (the Slurm scheduler CLI,
the git repository) appear as explicit inputs to the state-transition
functions.  Python exceptions are modelled with Option: a result of
none marks a raised exception.
-/

set_option maxRecDepth 100000

namespace DataladSlurm

/-- Python strings are modelled as lists of characters. -/
abbrev Str := List Char

/-- Model of Python `s.split(sep)` for a one-character separator
    (worker carrying the current field in reverse). -/
def splitOnCharAux (c : Char) : List Char → List Char → List (List Char)
  | [], acc => [acc.reverse]
  | x :: xs, acc =>
    if x = c then acc.reverse :: splitOnCharAux c xs []
    else splitOnCharAux c xs (x :: acc)

/-- Model of Python `s.split(sep)` for a one-character separator. -/
def splitOnChar (c : Char) (xs : Str) : List Str :=
  splitOnCharAux c xs []

/-- Characters Python `str.strip()` removes. -/
def isPySpace (c : Char) : Bool :=
  c = ' ' || c = '\t' || c = '\n' || c = '\x0d' || c = '\x0b' || c = '\x0c'

/-- Model of Python `str.lstrip()`. -/
def lstrip (xs : Str) : Str := xs.dropWhile isPySpace

/-- Model of Python `str.rstrip()`. -/
def rstrip (xs : Str) : Str := (xs.reverse.dropWhile isPySpace).reverse

/-- Model of Python `str.strip()`. -/
def strip (xs : Str) : Str := rstrip (lstrip xs)

/-- Decimal digit test, as used by Python `int()` and `str.isdigit()`
    on ASCII input. -/
def isDigitL (c : Char) : Bool := 48 ≤ c.toNat && c.toNat ≤ 57

/-- Accumulating worker for `parseNat`. -/
def parseNatAux : List Char → Nat → Nat
  | [], n => n
  | c :: cs, n => parseNatAux cs (n * 10 + (c.toNat - 48))

/-- Model of Python `int(s)` restricted to non-negative decimal
    literals, the only form the scheduler hands to this code; `none`
    models the `ValueError` raised on anything else. -/
def parseNat (xs : Str) : Option Nat :=
  if xs ≠ [] && xs.all isDigitL then some (parseNatAux xs 0) else none

/-- Decimal digits of a positive number, most significant first. -/
def natDigits : Nat → Nat → Str
  | 0, _ => []
  | f + 1, n =>
    if n = 0 then [] else natDigits f (n / 10) ++ [Char.ofNat (48 + n % 10)]

/-- Model of Python `str(n)` for a non-negative integer. -/
def natToStr (n : Nat) : Str :=
  if n = 0 then ['0'] else natDigits (n + 1) n

/-- Model of Python `str.capitalize()` restricted to ASCII, as applied
    to the job status group in finish.py line 428. -/
def capitalize (xs : Str) : Str :=
  match xs with
  | [] => []
  | c :: cs => c.toUpper :: cs.map Char.toLower

/-- Fuel-driven worker for `pyRange`; the fuel `stop - start` bounds the
    number of iterations of Python `range(start, stop, step)` when
    `1 ≤ step`. -/
def pyRangeAux : Nat → Nat → Nat → Nat → List Nat
  | 0, _, _, _ => []
  | fuel + 1, start, stop, step =>
    if start < stop then start :: pyRangeAux fuel (start + step) stop step
    else []

/-- Model of Python `range(start, stop, step)` for a positive step,
    as iterated by `generate_array_job_names` in schedule.py. -/
def pyRange (start stop step : Nat) : List Nat :=
  if 0 < step then pyRangeAux (stop - start) start stop step else []

/-- Expansion of a single range specifier (the body of the `for range_spec
    in ranges` loop of `generate_array_job_names`, schedule.py lines
    1022-1034).  `none` models a Python exception raised by `int()` or by
    `range` misuse. -/
def expandRangeSpec (job_id range_spec : Str) : Option (List Str) :=
  if range_spec.contains '-' = false then
    some [job_id ++ ['_'] ++ range_spec]
  else
    match splitOnChar ':' range_spec with
    | [] => none
    | p0 :: rest =>
      match splitOnChar '-' p0 with
      | [a, b] =>
        match parseNat a, parseNat b with
        | some start, some stop =>
          match rest with
          | [] =>
            some ((pyRange start (stop + 1) 1).map
              (fun i => job_id ++ ['_'] ++ natToStr i))
          | s :: _ =>
            match parseNat s with
            | some step =>
              if step = 0 then none
              else some ((pyRange start (stop + 1) step).map
                (fun i => job_id ++ ['_'] ++ natToStr i))
            | none => none
        | _, _ => none
      | _ => none

/-- Model of `generate_array_job_names(job_id, job_task_id)`
    (schedule.py lines 992-1036): strip a `%` limitation, split on
    commas, and expand every range specifier in order. -/
def generate_array_job_names (job_id job_task_id : Str) :
    Option (List Str) :=
  let jt := ((splitOnChar '%' job_task_id).headD job_task_id)
  let ranges := splitOnChar ',' jt
  ranges.foldlM
    (fun acc spec => (expandRangeSpec job_id spec).map (fun l => acc ++ l))
    []

/-- Python dict assignment `m[k] = v`: replace the value in place when
    the key exists, append otherwise (insertion order preserved). -/
def dictUpsert (m : List (Str × Str)) (k v : Str) : List (Str × Str) :=
  if m.any (fun p => p.1 == k) then
    m.map (fun p => if p.1 == k then (k, v) else p)
  else m ++ [(k, v)]

/-- Model of the Python substring test `pat in xs`. -/
def isSubstrOf (pat xs : Str) : Bool :=
  (List.range (xs.length + 1)).any (fun i => pat.isPrefixOf (xs.drop i))

/-- Per-task state normalization of `get_job_status` (finish.py lines
    544-545): any state containing "CANCELLED" becomes "CANCELLED". -/
def normalizeState (st : Str) : Str :=
  if isSubstrOf "CANCELLED".data st then "CANCELLED".data else st

/-- One line of parsable sacct output: `taskid|state`.  `none` models the
    ValueError Python raises when the unpacking in
    `job_id, state = line.split("|")` fails. -/
def parseSacctLine (line : Str) : Option (Str × Str) :=
  match splitOnChar '|' line with
  | [tid, st] => some (tid, normalizeState st)
  | _ => none

/-- Model of `get_job_status(job_id)` in finish.py (lines 497-557) as a
    function of the captured sacct stdout.  It validates the job id,
    rejects empty output, builds the per-task state dict line by line,
    and aggregates: a single shared state stands for itself, any mixture
    of states aggregates to "PARTIALLY COMPLETED".  `none` models a
    raised exception. -/
def get_job_status (job_id : Str) (sacct_stdout : Str) :
    Option (List (Str × Str) × Str) :=
  if (job_id ≠ [] && job_id.all isDigitL) = false then none
  else
    if strip sacct_stdout = [] then none
    else
      match (splitOnChar '\n' (strip sacct_stdout)).foldlM
          (fun m line => (parseSacctLine line).map
            (fun p => dictUpsert m p.1 p.2)) [] with
      | none => none
      | some [] => none
      | some ((t0, s0) :: restS) =>
        some ((t0, s0) :: restS,
          if ((t0, s0) :: restS).all (fun p => p.2 == s0) then s0
          else "PARTIALLY COMPLETED".data)

/-- Python truthiness of a value that is `None`, `False` or `True`. -/
def pyTruthy : Option Bool → Bool
  | some true => true
  | _ => false

/-- Worker for `parse_job_status`: scan the lines for the first one
    starting with "Slurm job" (reschedule.py lines 758-770).  The outer
    `none` models the IndexError raised when such a line has no colon;
    `some none` models the Python `None` returned when no line matches;
    `some (some b)` is the returned failure flag. -/
def parseJobStatusLines : List Str → Option (Option Bool)
  | [] => some none
  | line :: rest =>
    if "Slurm job".data.isPrefixOf line then
      match splitOnChar ':' line with
      | _ :: second :: _ =>
        if strip second = "Completed".data then some (some false)
        else some (some true)
      | _ => none
    else parseJobStatusLines rest

/-- Model of `parse_job_status(text)` in reschedule.py. -/
def parse_job_status (text : Str) : Option (Option Bool) :=
  parseJobStatusLines (splitOnChar '\n' text)

/-- Message written into a FINISH envelope commit (finish.py lines
    428-429): `Processed batch job <id>: <Status>` with the aggregate
    status capitalized. -/
def finishCommitMessage (slurm_job_id group : Str) : Str :=
  "Processed batch job ".data ++ slurm_job_id ++ ": ".data ++ capitalize group

/-- Decoded commit entry as assembled by `_revrange_as_results` in
    reschedule.py: commit hash, parents, whether a slurm run record was
    decoded, the dataset id recorded in it, and the stored `job_failed`
    flag (`parse_job_status` of the finish message). -/
structure RRes where
  commit : Str
  parents : List Str
  hasRunInfo : Bool
  dsid : Option Str
  job_failed : Option Bool
  deriving DecidableEq, Repr

/-- Candidate selection of `_rerun_as_results` (reschedule.py lines
    344-350): drop leading commits without a run record, then, unless
    failed jobs were requested, keep only entries whose `job_failed`
    value is falsy (Python `if not result["job_failed"]`). -/
def rerunCandidates (results : List RRes) (with_failed_jobs : Bool) :
    List RRes :=
  let dropped := results.dropWhile (fun r => !r.hasRunInfo)
  if with_failed_jobs then dropped
  else dropped.filter (fun r => !(pyTruthy r.job_failed))

/-- Commit classification of `_rerun_as_results` (reschedule.py lines
    366-383). -/
def rerunAction (dataset_id : Str) (r : RRes) : Str :=
  if r.hasRunInfo then
    match r.dsid with
    | some d => if d ≠ dataset_id then "skip-or-pick".data else "run".data
    | none => "run".data
  else
    if r.parents.length > 1 then "merge".data else "skip-or-pick".data

/-- Opening brace character. -/
def lbrace : Char := Char.ofNat 123

/-- Closing brace character. -/
def rbrace : Char := Char.ofNat 125

/-- Join chunks with a separator, as Python `sep.join(...)`. -/
def joinSep (sep : Str) : List Str → Str
  | [] => []
  | [x] => x
  | x :: y :: xs => x ++ sep ++ joinSep sep (y :: xs)

/-- JSON escaping of one character as performed by `json.dumps` with
    `ensure_ascii=False` (control characters other than newline, tab and
    carriage return do not occur in the recorded strings and are not
    modelled). -/
def escChar (c : Char) : Str :=
  if c = '"' then ['\\', '"']
  else if c = '\\' then ['\\', '\\']
  else if c = '\n' then ['\\', 'n']
  else if c = '\t' then ['\\', 't']
  else if c = '\x0d' then ['\\', 'r']
  else [c]

/-- JSON serialization of a string. -/
def jsonStr (s : Str) : Str := '"' :: (s.flatMap escChar) ++ ['"']

/-- JSON serialization of a list of strings at nesting depth one of a
    `json.dumps(..., indent=1)` document. -/
def jsonStrList (xs : List Str) : Str :=
  match xs with
  | [] => ['[', ']']
  | _ =>
    ['[', '\n'] ++
      joinSep (",\n".data) (xs.map (fun s => "  ".data ++ jsonStr s)) ++
      "\n ]".data

/-- A run record as assembled by `run_command` in schedule.py (lines
    667-741): the exact dict that `_create_record` serializes and
    `add_to_database` stores. -/
structure RunInfo where
  cmd : Str
  chain : List Str
  inputs : List Str
  extra_inputs : List Str
  outputs : List Str
  pwd : Str
  dsid : Str
  exit : Nat
  slurm_run_outputs : List Str
  slurm_job_id : Str
  deriving DecidableEq, Repr

/-- Model of `_create_record`'s `json.dumps(run_info, indent=1,
    sort_keys=True, ensure_ascii=False)` (schedule.py line 422) for the
    run record of a scheduled job: keys emitted in sorted order with
    one-space indentation. -/
def serializeRunInfo (r : RunInfo) : Str :=
  [lbrace, '\n'] ++
    joinSep (",\n".data)
      [" \"chain\": ".data ++ jsonStrList r.chain,
       " \"cmd\": ".data ++ jsonStr r.cmd,
       " \"dsid\": ".data ++ jsonStr r.dsid,
       " \"exit\": ".data ++ natToStr r.exit,
       " \"extra_inputs\": ".data ++ jsonStrList r.extra_inputs,
       " \"inputs\": ".data ++ jsonStrList r.inputs,
       " \"outputs\": ".data ++ jsonStrList r.outputs,
       " \"pwd\": ".data ++ jsonStr r.pwd,
       " \"slurm_job_id\": ".data ++ jsonStr r.slurm_job_id,
       " \"slurm_run_outputs\": ".data ++ jsonStrList r.slurm_run_outputs] ++
    ['\n', rbrace]

/-- Envelope marker line that opens the protected payload block
    (schedule.py line 775). -/
def sepMarker : Str := "=== Do not change lines below ===\n".data

/-- Envelope footer pattern as matched by the decoding regular
    expression (common.py lines 139-140): a newline followed by the
    protected-block closing line, without its trailing newline. -/
def footMarker : Str := "\n^^^ Do not change lines above ^^^".data

/-- Commit-message header of a (re)schedule envelope (schedule.py lines
    765-769). -/
def schedHeader (rerun : Bool) : Str :=
  if rerun then "[DATALAD RESCHEDULE] ".data else "[DATALAD SCHEDULE] ".data

/-- Submission status line appended to the user message (schedule.py
    lines 781-784). -/
def pendingCore (job_id : Str) : Str :=
  "Submitted batch job ".data ++ job_id ++ ": Pending".data

/-- User-visible message part of a schedule envelope (schedule.py lines
    780-789): the caller's message, the appended Pending line, and for a
    reschedule the re-submission note. -/
def scheduleUserMessage (userMsg : Option Str) (job_id : Str)
    (rerunOld : Option Str) : Str :=
  let base := match userMsg with
    | some m => m ++ '\n' :: ' ' :: pendingCore job_id
    | none => pendingCore job_id
  match rerunOld with
  | some old => base ++ "\n\nRe-submission of job ".data ++ old ++ ['.']
  | none => base

/-- Envelope text around a user message and a serialized record
    (schedule.py lines 769-778 and finish.py lines 421-427): header,
    message, protected block, footer. -/
def encodeEnvelope (header userPart payload : Str) : Str :=
  header ++ userPart ++ ['\n', '\n'] ++ sepMarker ++ payload ++
    footMarker ++ ['\n']

/-- Full commit text written for a scheduled job: the SCHEDULE (or
    RESCHEDULE) envelope around the Pending message and the serialized
    run record. -/
def encodeScheduleCommit (userMsg : Option Str) (rerunOld : Option Str)
    (r : RunInfo) : Str :=
  encodeEnvelope (schedHeader rerunOld.isSome)
    (scheduleUserMessage userMsg r.slurm_job_id rerunOld)
    (serializeRunInfo r)

/-- One row of the `open_jobs` table as created and filled by
    `add_to_database` (schedule.py lines 1046-1099).  The JSON-encoded
    list columns are modelled structurally: they are written with
    `json.dumps` and therefore always re-parse. -/
structure DBRow where
  slurm_job_id : Str
  message : Str
  chain : List Str
  cmd : Str
  dsid : Str
  inputs : List Str
  extra_inputs : List Str
  outputs : List Str
  slurm_outputs : List Str
  pwd : Str
  deriving DecidableEq, Repr

/-- Modelled from the spec: `connect_to_database` is imported from
    common.py by schedule.py but is not present under src/.  Per spec
    section 4.3 the open operation must not throw; it returns both
    handles, and callers treat a falsy handle as a connection failure.
    `connOk` is the environmental success of the connection; the state
    of the store is `none` when the `open_jobs` table does not exist yet
    (a SELECT then raises `sqlite3.Error`) and `some rows` otherwise. -/
def connect_to_database (connOk : Bool) (db : Option (List DBRow)) :
    Option (Option (List DBRow)) :=
  if connOk then some db else none

/-- Model of `check_output_conflict(dset, outputs)` (schedule.py lines
    856-889): `none` models the `return None, None` on a failed
    connection; a missing table (`sqlite3.Error`) yields no conflicts
    and a truthy status; otherwise every open job sharing an output with
    the candidate list is reported. -/
def check_output_conflict (connOk : Bool) (db : Option (List DBRow))
    (outputs : List Str) : Option (List Str × Bool) :=
  match connect_to_database connOk db with
  | none => none
  | some none => some ([], true)
  | some (some rows) =>
    some ((rows.filter
      (fun r => outputs.any (fun o => r.outputs.contains o))).map
        (fun r => r.slurm_job_id), true)

/-- Row built from a run record by the INSERT of `add_to_database`
    (schedule.py lines 1077-1099). -/
def dbRowOf (run_info : RunInfo) (message : Str) : DBRow :=
  { slurm_job_id := run_info.slurm_job_id
    message := message
    chain := run_info.chain
    cmd := run_info.cmd
    dsid := run_info.dsid
    inputs := run_info.inputs
    extra_inputs := run_info.extra_inputs
    outputs := run_info.outputs
    slurm_outputs := run_info.slurm_run_outputs
    pwd := run_info.pwd }

/-- Model of `add_to_database(dset, run_info, message)` (schedule.py
    lines 1039-1105): `none` models the early return on a failed
    connection; otherwise the table is created if absent and the record
    is appended with a plain INSERT. -/
def add_to_database (connOk : Bool) (db : Option (List DBRow))
    (run_info : RunInfo) (message : Str) : Option (List DBRow) :=
  match connect_to_database connOk db with
  | none => none
  | some d => some (d.getD [] ++ [dbRowOf run_info message])

/-- Scheduler-side data of one submission: the job id matched from the
    sbatch output and the stdout/stderr and environment-dump files
    discovered by `get_slurm_output_files`. -/
structure SlurmSubmission where
  job_id : Str
  slurm_outputs : List Str
  env_file : Str
  deriving DecidableEq, Repr

/-- Run record after submission (schedule.py lines 731-741): the
    discovered scheduler files are appended to `outputs`, recorded in
    `slurm_run_outputs`, and the job id is stored. -/
def submittedRunInfo (ri : RunInfo) (sub : SlurmSubmission) : RunInfo :=
  { ri with
    outputs := ri.outputs ++ sub.slurm_outputs ++ [sub.env_file]
    slurm_run_outputs := sub.slurm_outputs ++ [sub.env_file]
    exit := 0
    slurm_job_id := sub.job_id }

/-- Result yielded by the scheduling tail of `run_command`. -/
inductive ScheduleResult where
  | dbError : ScheduleResult
  | conflictError (conflicting_jobs : List Str) : ScheduleResult
  | ok (run_info : RunInfo) : ScheduleResult
  deriving DecidableEq, Repr

/-- Observable outcome of the scheduling tail: the yielded result, the
    ledger state, whether sbatch was invoked, and the envelope commit
    text written for the submission (none when nothing was recorded;
    the commit write itself is per spec section 4.4 step 8, its code is
    not under src/). -/
structure ScheduleOutcome where
  result : ScheduleResult
  db : Option (List DBRow)
  submitted : Bool
  committed : Option Str
  deriving DecidableEq, Repr

/-- Submission half of the `run_command` tail (schedule.py lines
    730-854): submit, extend the record with scheduler files, build the
    envelope text, and insert into the ledger. -/
def run_command_submit (connOk : Bool) (db : Option (List DBRow))
    (ri : RunInfo) (sub : SlurmSubmission) (userMsg : Option Str)
    (rerunOld : Option Str) : ScheduleOutcome :=
  let run_info := submittedRunInfo ri sub
  let msg := encodeScheduleCommit userMsg rerunOld run_info
  match add_to_database connOk db run_info msg with
  | none =>
    { result := ScheduleResult.dbError, db := db, submitted := true,
      committed := none }
  | some rows =>
    { result := ScheduleResult.ok run_info, db := some rows,
      submitted := true, committed := some msg }

/-- Scheduling tail of `run_command` (schedule.py lines 707-854): the
    output-conflict screening followed by submission and recording. -/
def run_command_tail (check_outputs connOk : Bool)
    (db : Option (List DBRow)) (ri : RunInfo) (sub : SlurmSubmission)
    (userMsg : Option Str) (rerunOld : Option Str) : ScheduleOutcome :=
  if check_outputs then
    match check_output_conflict connOk db ri.outputs with
    | none =>
      { result := ScheduleResult.dbError, db := db, submitted := false,
        committed := none }
    | some (conflicts, _) =>
      if conflicts ≠ [] then
        { result := ScheduleResult.conflictError conflicts, db := db,
          submitted := false, committed := none }
      else run_command_submit connOk db ri sub userMsg rerunOld
  else run_command_submit connOk db ri sub userMsg rerunOld

/-- Two ledger rows may share an output path only when the shared path
    is a scheduler-assigned file of one of them. -/
def sharedOnlySlurm (r1 r2 : DBRow) : Prop :=
  ∀ x, x ∈ r1.outputs → x ∈ r2.outputs →
    x ∈ r1.slurm_outputs ∨ x ∈ r2.slurm_outputs

/-- Ledger invariant: pairwise, open jobs share outputs only through
    scheduler-assigned files. -/
def ledgerInv : Option (List DBRow) → Prop
  | none => True
  | some rows => rows.Pairwise sharedOnlySlurm

/-- Number of ledger rows carrying a scheduler job id. -/
def countId (rows : List DBRow) (j : Str) : Nat :=
  (rows.filter (fun r => r.slurm_job_id == j)).length

/-- At most one row per scheduler job id. -/
def uniquePerId (rows : List DBRow) : Prop :=
  (rows.map (fun r => r.slurm_job_id)).Nodup

/-- Open row used by the C1 witness: job 9 records output `a`. -/
def exRow9 : DBRow :=
  ⟨"9".data, [], [], [], [], [], [], ["a".data], [], []⟩

/-- Run record used by the C1 witness: declares output `a`. -/
def exRiA : RunInfo :=
  ⟨[], [], [], [], ["a".data], [], [], 0, [], []⟩

/-- Submission data used by the C1 and C10 witnesses. -/
def exSubB : SlurmSubmission :=
  ⟨"2".data, [], "e".data⟩

/-- Scheduled job of the C1 counterexample: declares output `a`. -/
def exRi1 : RunInfo :=
  ⟨[], [], [], [], ["a".data], [], [], 0, [], []⟩

/-- First submission of the C1 counterexample. -/
def exSub1 : SlurmSubmission :=
  ⟨"1".data, ["s1".data], "e1".data⟩

/-- Second scheduled job of the C1 counterexample: declares output `b`. -/
def exRi2 : RunInfo :=
  ⟨[], [], [], [], ["b".data], [], [], 0, [], []⟩

/-- Second submission of the C1 counterexample: the scheduler assigns it
    the stdout file `a`, which job 1 already records as an output. -/
def exSub2 : SlurmSubmission :=
  ⟨"2".data, ["a".data], "e2".data⟩

/-- Outcome of scheduling the first counterexample job on an empty
    ledger. -/
def exStep1 : ScheduleOutcome :=
  run_command_tail true true (some []) exRi1 exSub1 none none

/-- Outcome of scheduling the second counterexample job on the resulting
    ledger. -/
def exStep2 : ScheduleOutcome :=
  run_command_tail true true exStep1.db exRi2 exSub2 none none

/-- Open row used by the C8 counterexample: job id 5. -/
def exRow5 : DBRow :=
  ⟨"5".data, [], [], [], [], [], [], [], [], []⟩

/-- Run record used by the C8 counterexample: the same job id 5. -/
def exRi5 : RunInfo :=
  ⟨[], [], [], [], [], [], [], 0, [], "5".data⟩

/-- Ledger row view used by the finish module: `get_scheduled_commits`
    (finish.py lines 232-260) SELECTs the `commit_id` and `slurm_job_id`
    columns of `open_jobs`.  The `commit_id` column is modelled from the
    spec: it is read here and by `check_finish_exists`, but the code
    that adds it to the schema is not under src/. -/
structure LedgerEntry where
  commit_id : Str
  slurm_job_id : Str
  deriving DecidableEq, Repr

/-- Result records yielded by `finish_cmd` before any save. -/
inductive FinishResult where
  | errorNoOutputs : FinishResult
  | errorNotComplete (statuses : List (Str × Str)) : FinishResult
  | errorNotSchedule (commit : Str) : FinishResult
  | okPartial (array_filename : Str) : FinishResult
  deriving DecidableEq, Repr

/-- Invocation of `Save.__call__` at the end of `finish_cmd` (finish.py
    lines 444-459): the globbed output paths and the FINISH envelope
    user message. -/
structure SaveCall where
  paths : List Str
  userMsg : Str
  deriving DecidableEq, Repr

/-- Observable outcome of one `finish_cmd` run: yielded results, the
    ledger rows, the working-tree files, and the save invocation (none
    when `Save` was never reached). -/
structure FinishOutcome where
  results : List FinishResult
  ledger : List LedgerEntry
  files : List Str
  save : Option SaveCall
  deriving DecidableEq, Repr

/-- Shorthand for the all-COMPLETED test of finish.py line 364. -/
def allCompleted (job_states : List (Str × Str)) : Bool :=
  job_states.all (fun p => p.2 == "COMPLETED".data)

/-- Shorthand for the PENDING/RUNNING test of finish.py lines 365-367. -/
def anyPendingRunning (job_states : List (Str × Str)) : Bool :=
  job_states.any
    (fun p => p.2 == "PENDING".data || p.2 == "RUNNING".data)

/-- Shorthand for the CANCELLED/FAILED test of finish.py line 379. -/
def anyFailedCancelled (job_states : List (Str × Str)) : Bool :=
  job_states.any
    (fun p => p.2 == "CANCELLED".data || p.2 == "FAILED".data)

/-- Breakdown file name of a partially completed array job (finish.py
    line 389). -/
def arrayInfoFilename (slurm_job_id : Str) : Str :=
  "array-job-info-".data ++ slurm_job_id ++ ".out".data

/-- Core of `finish_cmd` (finish.py lines 343-459), starting after the
    schedule envelope of `commit` was decoded into `run_info`: check the
    outputs, resolve the job status, refuse on incomplete jobs, delete
    scheduler files of failed tasks, handle partial completion, delete
    the ledger row, and call `Save`.  Glob expansion is modelled as the
    identity, faithful for wildcard-free paths.  `none` models an
    uncaught Python exception. -/
def finish_cmd_core (commit : Str) (run_info : RunInfo)
    (userOutputs : List Str) (close_failed_jobs : Bool)
    (sacct_stdout : Str) (ledger : List LedgerEntry)
    (files : List Str) : Option FinishOutcome :=
  if userOutputs ++ run_info.outputs = [] then
    some ⟨[FinishResult.errorNoOutputs], ledger, files, none⟩
  else
    match get_job_status run_info.slurm_job_id sacct_stdout with
    | none => none
    | some (job_states, job_status_group) =>
      if !allCompleted job_states &&
          (!close_failed_jobs || anyPendingRunning job_states) then
        some ⟨[FinishResult.errorNotComplete job_states], ledger, files,
          none⟩
      else
        some ⟨(if job_status_group = "PARTIALLY COMPLETED".data then
            [FinishResult.okPartial (arrayInfoFilename run_info.slurm_job_id)]
          else []),
          ledger.filter
            (fun e => e.slurm_job_id ≠ run_info.slurm_job_id),
          (if job_status_group = "PARTIALLY COMPLETED".data then
            (if anyFailedCancelled job_states then
              files.filter
                (fun f => !(run_info.slurm_run_outputs.contains f))
            else files) ++ [arrayInfoFilename run_info.slurm_job_id]
          else
            (if anyFailedCancelled job_states then
              files.filter
                (fun f => !(run_info.slurm_run_outputs.contains f))
            else files)),
          some ⟨(if job_status_group = "PARTIALLY COMPLETED".data then
              userOutputs ++ run_info.outputs ++
                [arrayInfoFilename run_info.slurm_job_id]
            else userOutputs ++ run_info.outputs),
            finishCommitMessage run_info.slurm_job_id job_status_group⟩⟩

/-- Model of `get_scheduled_commits(since, dset, branch)` (finish.py
    lines 232-260): both columns of the open_jobs table, optionally
    sliced before `since` (Python leaves the loop index at the last
    element when `since` is not found, and raises NameError on an empty
    table). -/
def get_scheduled_commits (since : Option Str)
    (ledger : List LedgerEntry) : Option (List Str × List Str) :=
  match since with
  | none => some (ledger.map (fun e => e.commit_id),
      ledger.map (fun e => e.slurm_job_id))
  | some s =>
    match ledger with
    | [] => none
    | _ =>
      let ids := ledger.map (fun e => e.commit_id)
      let i := match ids.findIdx? (fun c => c == s) with
        | some i => i
        | none => ledger.length - 1
      some (ids.take i, (ledger.map (fun e => e.slurm_job_id)).take i)

/-- Loop of `Finish.__call__` (finish.py lines 216-229) over the commit
    list: decode each commit (via the environment `env`, the decoded
    schedule envelopes of the repository history), run `finish_cmd`, and
    thread the ledger and working tree through.  A commit without a
    schedule envelope yields an error result and processing continues;
    an uncaught exception aborts the remaining commits. -/
def finishDriver (commits : List Str) (env : Str → Option RunInfo)
    (sacct : Str → Str) (userOutputs : List Str) (close_failed : Bool) :
    List LedgerEntry → List Str → List (Str × Option FinishOutcome)
  | ledger, files =>
    match commits with
    | [] => []
    | c :: cs =>
      match env c with
      | none =>
        (c, some ⟨[FinishResult.errorNotSchedule c], ledger, files,
          none⟩) ::
          finishDriver cs env sacct userOutputs close_failed ledger files
      | some ri =>
        match finish_cmd_core c ri userOutputs close_failed
            (sacct ri.slurm_job_id) ledger files with
        | none => [(c, none)]
        | some out =>
          (c, some out) ::
            finishDriver cs env sacct userOutputs close_failed
              out.ledger out.files

/-- Model of a `datalad finish` invocation without an explicit commit
    (finish.py lines 196-229): iterate `finish_cmd` over the commits of
    all open ledger rows. -/
def finish_no_commit (since : Option Str) (env : Str → Option RunInfo)
    (sacct : Str → Str) (userOutputs : List Str) (close_failed : Bool)
    (ledger : List LedgerEntry) (files : List Str) :
    Option (List (Str × Option FinishOutcome)) :=
  match get_scheduled_commits since ledger with
  | none => none
  | some (commits, _) =>
    some (finishDriver commits env sacct userOutputs close_failed
      ledger files)

/-- Run record used by the C3 and C7 concrete instances: job 7 with one
    declared output and one scheduler-output file. -/
def exRiF : RunInfo :=
  ⟨[], [], [], [], ["sl".data], [], [], 0, ["sl".data], "7".data⟩

/-- Ledger used by the C3 and C7 concrete instances. -/
def exLedger7 : List LedgerEntry := [⟨"c".data, "7".data⟩]

/-- Outcome of the C7 witness instance. -/
def exOut7 : FinishOutcome :=
  ⟨[FinishResult.errorNotComplete [("7".data, "PENDING".data)]],
    exLedger7, ["sl".data], none⟩

/-- Indices at which `pat` occurs in `xs` (ascending). -/
def occs (pat xs : Str) : List Nat :=
  (List.range (xs.length + 1)).filter (fun i => pat.isPrefixOf (xs.drop i))

/-- Expect a literal prefix and return the remainder. -/
def parseLit (lit s : Str) : Option Str :=
  if lit.isPrefixOf s then some (s.drop lit.length) else none

/-- Read a JSON string body up to the closing quote, undoing the
    escapes `json.dumps` produces (worker, accumulator reversed). -/
def parseJStringAux : Str → Str → Option (Str × Str)
  | [], _ => none
  | c :: cs, acc =>
    if c = '"' then some (acc.reverse, cs)
    else if c = '\\' then
      match cs with
      | [] => none
      | e :: cs2 =>
        if e = '"' then parseJStringAux cs2 ('"' :: acc)
        else if e = '\\' then parseJStringAux cs2 ('\\' :: acc)
        else if e = 'n' then parseJStringAux cs2 ('\n' :: acc)
        else if e = 't' then parseJStringAux cs2 ('\t' :: acc)
        else if e = 'r' then parseJStringAux cs2 ('\x0d' :: acc)
        else none
    else parseJStringAux cs (c :: acc)

/-- Parse a JSON string literal, returning its value and the rest. -/
def parseJStringTop (s : Str) : Option (Str × Str) :=
  match s with
  | '"' :: rest => parseJStringAux rest []
  | _ => none

/-- Parse a JSON non-negative integer literal. -/
def parseNatTok (s : Str) : Option (Nat × Str) :=
  if s.takeWhile isDigitL = [] then none
  else some (parseNatAux (s.takeWhile isDigitL) 0, s.dropWhile isDigitL)

/-- Parse the elements of a non-empty indent-1 JSON string list
    (fuel-driven; the fuel starts at the input length). -/
def parseStrListAux : Nat → Str → List Str → Option (List Str × Str)
  | 0, _, _ => none
  | fuel + 1, s, acc =>
    match parseLit "  ".data s with
    | none => none
    | some s1 =>
      match parseJStringTop s1 with
      | none => none
      | some (v, s2) =>
        if ",\n".data.isPrefixOf s2 then
          parseStrListAux fuel (s2.drop 2) (v :: acc)
        else
          match parseLit "\n ]".data s2 with
          | none => none
          | some s3 => some ((v :: acc).reverse, s3)

/-- Parse a JSON list of strings as serialized at depth one by
    `json.dumps(..., indent=1)`. -/
def parseStrList (s : Str) : Option (List Str × Str) :=
  match s with
  | '[' :: ']' :: rest => some ([], rest)
  | '[' :: '\n' :: rest => parseStrListAux rest.length rest []
  | _ => none

/-- Run record with every field empty, filled in field by field by the
    payload parse. -/
def emptyRunInfo : RunInfo := ⟨[], [], [], [], [], [], [], 0, [], []⟩

/-- Parse one `"key": [list]` segment of the payload and store it. -/
def stepList (lit : Str) (upd : RunInfo → List Str → RunInfo)
    (p : RunInfo × Str) : Option (RunInfo × Str) :=
  match parseLit lit p.2 with
  | none => none
  | some s1 =>
    match parseStrList s1 with
    | none => none
    | some (v, s2) => some (upd p.1 v, s2)

/-- Parse one `"key": "string"` segment of the payload and store it. -/
def stepStr (lit : Str) (upd : RunInfo → Str → RunInfo)
    (p : RunInfo × Str) : Option (RunInfo × Str) :=
  match parseLit lit p.2 with
  | none => none
  | some s1 =>
    match parseJStringTop s1 with
    | none => none
    | some (v, s2) => some (upd p.1 v, s2)

/-- Parse one `"key": n` segment of the payload and store it. -/
def stepNat (lit : Str) (upd : RunInfo → Nat → RunInfo)
    (p : RunInfo × Str) : Option (RunInfo × Str) :=
  match parseLit lit p.2 with
  | none => none
  | some s1 =>
    match parseNatTok s1 with
    | none => none
    | some (v, s2) => some (upd p.1 v, s2)

/-- Payload parse, field 1: chain. -/
def pRI1 (s : Str) : Option (RunInfo × Str) :=
  stepList ([lbrace, '\n'] ++ " \"chain\": ".data)
    (fun r v => { r with chain := v }) (emptyRunInfo, s)

/-- Payload parse, field 2: cmd. -/
def pRI2 (s : Str) : Option (RunInfo × Str) :=
  (pRI1 s).bind
    (stepStr (",\n \"cmd\": ".data) (fun r v => { r with cmd := v }))

/-- Payload parse, field 3: dsid. -/
def pRI3 (s : Str) : Option (RunInfo × Str) :=
  (pRI2 s).bind
    (stepStr (",\n \"dsid\": ".data) (fun r v => { r with dsid := v }))

/-- Payload parse, field 4: exit. -/
def pRI4 (s : Str) : Option (RunInfo × Str) :=
  (pRI3 s).bind
    (stepNat (",\n \"exit\": ".data) (fun r v => { r with exit := v }))

/-- Payload parse, field 5: extra_inputs. -/
def pRI5 (s : Str) : Option (RunInfo × Str) :=
  (pRI4 s).bind
    (stepList (",\n \"extra_inputs\": ".data)
      (fun r v => { r with extra_inputs := v }))

/-- Payload parse, field 6: inputs. -/
def pRI6 (s : Str) : Option (RunInfo × Str) :=
  (pRI5 s).bind
    (stepList (",\n \"inputs\": ".data)
      (fun r v => { r with inputs := v }))

/-- Payload parse, field 7: outputs. -/
def pRI7 (s : Str) : Option (RunInfo × Str) :=
  (pRI6 s).bind
    (stepList (",\n \"outputs\": ".data)
      (fun r v => { r with outputs := v }))

/-- Payload parse, field 8: pwd. -/
def pRI8 (s : Str) : Option (RunInfo × Str) :=
  (pRI7 s).bind
    (stepStr (",\n \"pwd\": ".data) (fun r v => { r with pwd := v }))

/-- Payload parse, field 9: slurm_job_id. -/
def pRI9 (s : Str) : Option (RunInfo × Str) :=
  (pRI8 s).bind
    (stepStr (",\n \"slurm_job_id\": ".data)
      (fun r v => { r with slurm_job_id := v }))

/-- Payload parse, field 10: slurm_run_outputs. -/
def pRI10 (s : Str) : Option (RunInfo × Str) :=
  (pRI9 s).bind
    (stepList (",\n \"slurm_run_outputs\": ".data)
      (fun r v => { r with slurm_run_outputs := v }))

/-- Model of `json.loads` composed with the structural checks of
    `get_schedule_info` (common.py lines 153-175) on the payloads this
    program writes: the serialized run-record object is parsed back into
    its fields (the `cmd` key is present by construction, so the
    "does not have a command" error cannot fire on these payloads). -/
def parseRunInfo (s : Str) : Option RunInfo :=
  (pRI10 s).bind (fun p =>
    match parseLit ('\n' :: [rbrace]) p.2 with
    | none => none
    | some s2 => if s2 = [] then some p.1 else none)

/-- Header recognition of the decoding regular expression (common.py
    lines 137-146): a SCHEDULE prefix always matches, a RESCHEDULE
    prefix only when allowed. -/
def stripHeader (allow_reschedule : Bool) (message : Str) : Option Str :=
  if "[DATALAD SCHEDULE] ".data.isPrefixOf message then
    some (message.drop "[DATALAD SCHEDULE] ".data.length)
  else if allow_reschedule &&
      "[DATALAD RESCHEDULE] ".data.isPrefixOf message then
    some (message.drop "[DATALAD RESCHEDULE] ".data.length)
  else none

/-- Greedy split of the regular expression
    `(.*)=== Do not change lines below ===\n(.*)\n\^\^\^ Do not change
    lines above \^\^\^` with DOTALL (common.py lines 138-147): the first
    group extends to the last marker occurrence that still has a footer
    occurrence after it, the second group to the last footer occurrence
    after that marker. -/
def decodeEnvelopeBody (rest : Str) : Option (Str × Str) :=
  match ((occs sepMarker rest).filter
      (fun i => ((occs footMarker rest).filter
        (fun j => i + sepMarker.length ≤ j)) ≠ [])).getLast? with
  | none => none
  | some i =>
    match ((occs footMarker rest).filter
        (fun j => i + sepMarker.length ≤ j)).getLast? with
    | none => none
    | some j =>
      some (rest.take i,
        (rest.drop (i + sepMarker.length)).take
          (j - (i + sepMarker.length)))

/-- Model of `get_schedule_info(dset, message, allow_reschedule)`
    (common.py lines 119-175) on inline (non-sidecar) payloads: match
    the envelope, strip trailing whitespace off the message group, and
    parse the payload.  `none` covers both the "not an envelope" result
    and the raised ValueError. -/
def get_schedule_info_model (allow_reschedule : Bool) (message : Str) :
    Option (Str × RunInfo) :=
  match stripHeader allow_reschedule message with
  | none => none
  | some rest =>
    match decodeEnvelopeBody rest with
    | none => none
    | some (rec_msg, payload) =>
      match parseRunInfo payload with
      | none => none
      | some ri => some (rstrip rec_msg, ri)

/-- Body of a schedule envelope after the header, in the associativity
    `encodeEnvelope` produces. -/
def scheduleEnvelopeBody (userMsg : Option Str) (r : RunInfo) : Str :=
  scheduleUserMessage userMsg r.slurm_job_id none ++
    '\n' :: '\n' :: (sepMarker ++ (serializeRunInfo r ++
      (footMarker ++ ['\n'])))

/-- Concrete run record used to exercise the envelope round trip. -/
def exR5c : RunInfo :=
  ⟨"c".data, [], [], [], [], [], [], 0, [], "7".data⟩

/-- Membership in the fuel-driven range worker, provided the fuel covers
    the whole range. -/
theorem pyRangeAux_mem (step : Nat) (hstep : 0 < step) :
    ∀ (fuel start stop x : Nat), stop - start ≤ fuel →
      (x ∈ pyRangeAux fuel start stop step ↔
        ∃ k, x = start + step * k ∧ x < stop) := by
  intro fuel
  induction fuel with
  | zero =>
    intro start stop x hf
    simp only [pyRangeAux, List.not_mem_nil, false_iff]
    rintro ⟨k, hx, hlt⟩
    omega
  | succ f ih =>
    intro start stop x hf
    by_cases hlt : start < stop
    · simp only [pyRangeAux, hlt, if_true, List.mem_cons]
      rw [ih (start + step) stop x (by omega)]
      constructor
      · rintro (rfl | ⟨k, rfl, hk⟩)
        · exact ⟨0, by ring, hlt⟩
        · exact ⟨k + 1, by ring, hk⟩
      · rintro ⟨k, rfl, hk⟩
        cases k with
        | zero => left; ring
        | succ k => right; exact ⟨k, by ring, hk⟩
    · simp only [pyRangeAux, hlt, if_false, List.not_mem_nil, false_iff]
      rintro ⟨k, hx, hk⟩
      omega

/-- Membership in the model of Python `range` with a positive step:
    exactly the arithmetic progression below the bound. -/
theorem pyRange_mem (start stop step x : Nat) (hstep : 0 < step) :
    x ∈ pyRange start stop step ↔ ∃ k, x = start + step * k ∧ x < stop := by
  unfold pyRange
  rw [if_pos hstep]
  exact pyRangeAux_mem step hstep (stop - start) start stop x (le_refl _)

/-- Splitting a separator-free chunk leaves it whole. -/
theorem splitOnCharAux_no_sep (c : Char) :
    ∀ (p acc : List Char), c ∉ p →
      splitOnCharAux c p acc = [acc.reverse ++ p] := by
  intro p
  induction p with
  | nil => intro acc _; simp [splitOnCharAux]
  | cons x xs ih =>
    intro acc hx
    have hxc : x ≠ c := fun h => hx (by simp [h])
    simp only [splitOnCharAux, if_neg hxc]
    rw [ih (x :: acc) (fun h => hx (List.mem_cons_of_mem _ h))]
    simp

/-- Splitting at the first separator occurrence. -/
theorem splitOnCharAux_sep (c : Char) :
    ∀ (p q acc : List Char), c ∉ p →
      splitOnCharAux c (p ++ c :: q) acc =
        (acc.reverse ++ p) :: splitOnCharAux c q [] := by
  intro p
  induction p with
  | nil => intro q acc _; simp [splitOnCharAux]
  | cons x xs ih =>
    intro q acc hx
    have hxc : x ≠ c := fun h => hx (by simp [h])
    simp only [List.cons_append, splitOnCharAux, if_neg hxc, List.append_eq]
    rw [ih q (x :: acc) (fun h => hx (List.mem_cons_of_mem _ h))]
    simp

/-- Model of Python split on a string that avoids the separator. -/
theorem splitOnChar_no_sep (c : Char) (p : List Char) (h : c ∉ p) :
    splitOnChar c p = [p] := by
  unfold splitOnChar
  rw [splitOnCharAux_no_sep c p [] h]
  simp

/-- Model of Python split around one separator occurrence. -/
theorem splitOnChar_sep (c : Char) (p q : List Char) (h : c ∉ p) :
    splitOnChar c (p ++ c :: q) = p :: splitOnChar c q := by
  unfold splitOnChar
  rw [splitOnCharAux_sep c p q [] h]
  simp

/-- Strings accepted by `parseNat` consist of digits only. -/
theorem parseNat_all_digits (xs : Str) (n : Nat) (h : parseNat xs = some n) :
    xs.all isDigitL = true := by
  unfold parseNat at h
  split at h
  · rename_i hcond
    simp only [Bool.and_eq_true] at hcond
    exact hcond.2
  · cases h

/-- Digit strings accepted by `parseNat` avoid any non-digit character. -/
theorem parseNat_not_mem (xs : Str) (n : Nat) (h : parseNat xs = some n)
    (c : Char) (hc : isDigitL c = false) : c ∉ xs := by
  intro hmem
  have hall := parseNat_all_digits xs n h
  have hd := List.all_eq_true.mp hall c hmem
  rw [hc] at hd
  cases hd

/-- Characters that are not decimal digits cannot appear in a string the
    scheduler parsed as a number; specialization used for separators. -/
theorem parseNat_sep_free (xs : Str) (n : Nat) (h : parseNat xs = some n) :
    '%' ∉ xs ∧ ',' ∉ xs ∧ ':' ∉ xs ∧ '-' ∉ xs :=
  ⟨parseNat_not_mem xs n h '%' (by decide),
   parseNat_not_mem xs n h ',' (by decide),
   parseNat_not_mem xs n h ':' (by decide),
   parseNat_not_mem xs n h '-' (by decide)⟩

/-- Expansion of a `start-stop:step` specifier built from parseable
    numerals follows the arithmetic progression of `pyRange`. -/
theorem generate_range_step (jid a b s : Str) (na nb ns : Nat)
    (ha : parseNat a = some na) (hb : parseNat b = some nb)
    (hs : parseNat s = some ns) (hns : 0 < ns) :
    generate_array_job_names jid (a ++ ['-'] ++ b ++ [':'] ++ s) =
      some ((pyRange na (nb + 1) ns).map
        (fun i => jid ++ ['_'] ++ natToStr i)) := by
  obtain ⟨hpa, hca, hsa, hda⟩ := parseNat_sep_free a na ha
  obtain ⟨hpb, hcb, hsb, hdb⟩ := parseNat_sep_free b nb hb
  obtain ⟨hps, hcs, hss, hds⟩ := parseNat_sep_free s ns hs
  have hshape : a ++ ['-'] ++ b ++ [':'] ++ s = a ++ '-' :: (b ++ ':' :: s) := by
    simp
  rw [hshape]
  have hnopct : '%' ∉ a ++ '-' :: (b ++ ':' :: s) := by
    simp only [List.mem_append, List.mem_cons]
    rintro (h | h | h | h | h)
    · exact hpa h
    · cases h
    · exact hpb h
    · cases h
    · exact hps h
  have hnocomma : ',' ∉ a ++ '-' :: (b ++ ':' :: s) := by
    simp only [List.mem_append, List.mem_cons]
    rintro (h | h | h | h | h)
    · exact hca h
    · cases h
    · exact hcb h
    · cases h
    · exact hcs h
  have hassoc : a ++ '-' :: (b ++ ':' :: s) = (a ++ '-' :: b) ++ ':' :: s := by
    rw [List.append_assoc, List.cons_append]
  have hnocolon : ':' ∉ a ++ '-' :: b := by
    simp only [List.mem_append, List.mem_cons]
    rintro (h | h | h)
    · exact hsa h
    · cases h
    · exact hsb h
  have hcont : (a ++ '-' :: (b ++ ':' :: s)).contains '-' = true := by
    simp
  have e1 : splitOnChar ':' (a ++ '-' :: (b ++ ':' :: s)) = (a ++ '-' :: b) :: [s] := by
    rw [hassoc, splitOnChar_sep ':' _ _ hnocolon, splitOnChar_no_sep ':' s hss]
  have e2 : splitOnChar '-' (a ++ '-' :: b) = [a, b] := by
    rw [splitOnChar_sep '-' a b hda, splitOnChar_no_sep '-' b hdb]
  unfold generate_array_job_names
  rw [splitOnChar_no_sep '%' _ hnopct]
  simp only [List.headD]
  rw [splitOnChar_no_sep ',' _ hnocomma]
  simp [List.foldlM, expandRangeSpec, hcont, e1, e2, ha, hb, hs, hns.ne']

/-- C9: array-job name expansion maps a stepped range specifier to the
    arithmetic progression of sub-task names and a comma list to one
    name per listed index, ignoring any `%throttle` suffix; in
    particular the two quoted evaluations hold. -/
theorem c9_array_job_name_expansion :
    (generate_array_job_names "12345".data "1-5:2".data =
        some ["12345_1".data, "12345_3".data, "12345_5".data]) ∧
    (generate_array_job_names "12345".data "1,3,5".data =
        some ["12345_1".data, "12345_3".data, "12345_5".data]) ∧
    (generate_array_job_names "12345".data "1-5:2%4".data =
        generate_array_job_names "12345".data "1-5:2".data) ∧
    (∀ (jid a b s : Str) (na nb ns : Nat),
        parseNat a = some na → parseNat b = some nb →
        parseNat s = some ns → 0 < ns →
        generate_array_job_names jid (a ++ ['-'] ++ b ++ [':'] ++ s) =
          some ((pyRange na (nb + 1) ns).map
            (fun i => jid ++ ['_'] ++ natToStr i))) ∧
    (∀ start stop step x : Nat, 0 < step →
        (x ∈ pyRange start stop step ↔
          ∃ k, x = start + step * k ∧ x < stop)) := by
  refine ⟨by decide, by decide, by decide, ?_, ?_⟩
  · intro jid a b s na nb ns ha hb hs hns
    exact generate_range_step jid a b s na nb ns ha hb hs hns
  · intro start stop step x h
    exact pyRange_mem start stop step x h

/-- Witness for C9 at concrete inputs. -/
theorem c9_array_job_name_expansion_witness :
    (generate_array_job_names "7".data
        ("1".data ++ ['-'] ++ "5".data ++ [':'] ++ "2".data) =
      some ((pyRange 1 (5 + 1) 2).map
        (fun i => "7".data ++ ['_'] ++ natToStr i))) ∧
    (3 ∈ pyRange 1 6 2 ↔ ∃ k, 3 = 1 + 2 * k ∧ 3 < 6) :=
  ⟨c9_array_job_name_expansion.2.2.2.1 "7".data "1".data "5".data "2".data
      1 5 2 (by decide) (by decide) (by decide) (by decide),
   c9_array_job_name_expansion.2.2.2.2 1 6 2 3 (by decide)⟩

/-- C2 counterexample: on the two-task query with states FAILED and
    TIMEOUT the resolver aggregates to "PARTIALLY COMPLETED", not to the
    claimed MULTI_CAUSE_FAILURE (no such value exists in the code). -/
theorem c2_counterexample :
    get_job_status "1".data "1|FAILED\n2|TIMEOUT".data =
      some ([("1".data, "FAILED".data), ("2".data, "TIMEOUT".data)],
        "PARTIALLY COMPLETED".data) ∧
    "PARTIALLY COMPLETED".data ≠ "MULTI_CAUSE_FAILURE".data := by
  exact ⟨by decide, by decide⟩

/-- C2 (amended): for every non-empty map of per-task states produced by
    the resolver, the aggregate equals the shared state when all tasks
    report one state, and equals "PARTIALLY COMPLETED" whenever the
    states differ, whether or not any task is COMPLETED. -/
theorem c2_status_aggregation (jid out t0 s0 : Str)
    (rest : List (Str × Str)) (group : Str)
    (h : get_job_status jid out = some ((t0, s0) :: rest, group)) :
    ((∀ p ∈ (t0, s0) :: rest, p.2 = s0) → group = s0) ∧
    ((∃ p ∈ (t0, s0) :: rest, p.2 ≠ s0) →
      group = "PARTIALLY COMPLETED".data) := by
  unfold get_job_status at h
  split at h
  · cases h
  · split at h
    · cases h
    · split at h
      · cases h
      · cases h
      · rename_i t0h s0h restSh heq
        rw [Option.some_inj, Prod.mk.injEq] at h
        obtain ⟨hstates, hgroup⟩ := h
        rw [List.cons_eq_cons, Prod.mk.injEq] at hstates
        obtain ⟨⟨ht0, hs0⟩, hrest⟩ := hstates
        subst ht0 hs0 hrest
        constructor
        · intro hall
          rw [← hgroup, if_pos]
          rw [List.all_eq_true]
          intro p hp
          exact beq_iff_eq.mpr (hall p hp)
        · rintro ⟨p, hp, hne⟩
          rw [← hgroup, if_neg]
          intro hcond
          exact hne (beq_iff_eq.mp (List.all_eq_true.mp hcond p hp))

/-- Witness for C2 on a uniformly completed two-task job. -/
theorem c2_status_aggregation_witness :
    get_job_status "1".data "1|COMPLETED\n2|COMPLETED".data =
      some ([("1".data, "COMPLETED".data), ("2".data, "COMPLETED".data)],
        "COMPLETED".data) ∧
    "COMPLETED".data = "COMPLETED".data := by
  have h : get_job_status "1".data "1|COMPLETED\n2|COMPLETED".data =
      some ([("1".data, "COMPLETED".data), ("2".data, "COMPLETED".data)],
        "COMPLETED".data) := by decide
  refine ⟨h, ?_⟩
  exact (c2_status_aggregation "1".data "1|COMPLETED\n2|COMPLETED".data
      "1".data "COMPLETED".data [("2".data, "COMPLETED".data)]
      "COMPLETED".data h).1 (by decide)

/-- C4 (code bug): finish commits carry the message `Processed batch job
    <id>: <Status>`, but `parse_job_status` only inspects lines starting
    with "Slurm job", so it returns `None` on every message finish ever
    writes; the falsy flag makes the reschedule candidate filter keep a
    failed commit even without `--with-failed-jobs`, and the commit is
    then classified as a `run` candidate.  The last two conjuncts show
    the scan would work on a message that did start with "Slurm job". -/
theorem c4_failed_commit_not_excluded :
    parse_job_status (finishCommitMessage "123".data "FAILED".data) =
      some none ∧
    (rerunCandidates
        [⟨"abc1234".data, ["p".data], true, some "ds".data, none⟩] false =
      [⟨"abc1234".data, ["p".data], true, some "ds".data, none⟩]) ∧
    rerunAction "ds".data
        ⟨"abc1234".data, ["p".data], true, some "ds".data, none⟩ =
      "run".data ∧
    parse_job_status "Slurm job 123: Failed".data = some (some true) ∧
    parse_job_status "Slurm job 123: Completed".data = some (some false) := by
  refine ⟨by decide, by decide, by decide, by decide, by decide⟩

/-- An empty conflict report means no open row shares any candidate
    output. -/
theorem filter_conflicts_nil (rows : List DBRow) (outputs : List Str)
    (h : (rows.filter
        (fun r => outputs.any (fun o => r.outputs.contains o))).map
          (fun r => r.slurm_job_id) = []) :
    ∀ r ∈ rows, ∀ x ∈ outputs, x ∉ r.outputs := by
  intro r hr x hx hmem
  have hf : rows.filter
      (fun r => outputs.any (fun o => r.outputs.contains o)) = [] := by
    cases hl : rows.filter
        (fun r => outputs.any (fun o => r.outputs.contains o)) with
    | nil => rfl
    | cons a l => rw [hl] at h; cases h
  have hnone := List.filter_eq_nil_iff.mp hf r hr
  apply hnone
  simp only [List.any_eq_true]
  exact ⟨x, hx, by simpa using hmem⟩

/-- Reduction of the scheduling tail once the conflict scan result is
    known. -/
theorem run_command_tail_conflicts (connOk : Bool)
    (db : Option (List DBRow)) (ri : RunInfo) (sub : SlurmSubmission)
    (userMsg rerunOld : Option Str) (conflicts : List Str) (st : Bool)
    (h : check_output_conflict connOk db ri.outputs = some (conflicts, st)) :
    run_command_tail true connOk db ri sub userMsg rerunOld =
      if conflicts ≠ [] then
        { result := ScheduleResult.conflictError conflicts, db := db,
          submitted := false, committed := none }
      else run_command_submit connOk db ri sub userMsg rerunOld := by
  unfold run_command_tail
  rw [if_pos rfl, h]

/-- C1 (amended): with output checking enabled, a submission whose
    candidate outputs intersect a recorded output of any open job is
    rejected with an error carrying the conflicting job ids, nothing is
    submitted, and neither ledger nor commit text changes; moreover
    every reachable ledger state keeps the invariant that two distinct
    open jobs share output paths only through scheduler-assigned files
    (full recorded output sets need not be disjoint, see the
    counterexample). -/
theorem c1_conflict_rejection_and_invariant
    (connOk : Bool) (db : Option (List DBRow)) (ri : RunInfo)
    (sub : SlurmSubmission) (userMsg rerunOld : Option Str) :
    (∀ conflicts st,
      check_output_conflict connOk db ri.outputs = some (conflicts, st) →
      conflicts ≠ [] →
      run_command_tail true connOk db ri sub userMsg rerunOld =
        { result := ScheduleResult.conflictError conflicts, db := db,
          submitted := false, committed := none }) ∧
    (ledgerInv db →
      ledgerInv (run_command_tail true connOk db ri sub userMsg
        rerunOld).db) := by
  constructor
  · intro conflicts st h hne
    rw [run_command_tail_conflicts connOk db ri sub userMsg rerunOld
      conflicts st h, if_pos hne]
  · intro hinv
    cases connOk with
    | false =>
      simpa [run_command_tail, check_output_conflict,
        connect_to_database] using hinv
    | true =>
      cases db with
      | none =>
        simp [run_command_tail, check_output_conflict, connect_to_database,
          run_command_submit, add_to_database, ledgerInv]
      | some rows =>
        have hceq : check_output_conflict true (some rows) ri.outputs =
            some ((rows.filter
              (fun r => ri.outputs.any (fun o => r.outputs.contains o))).map
                (fun r => r.slurm_job_id), true) := rfl
        by_cases hc : (rows.filter
            (fun r => ri.outputs.any (fun o => r.outputs.contains o))).map
              (fun r => r.slurm_job_id) = []
        · have hdisj := filter_conflicts_nil rows ri.outputs hc
          have houtcome : (run_command_tail true true (some rows) ri sub
              userMsg rerunOld).db =
              some (rows ++ [dbRowOf (submittedRunInfo ri sub)
                (encodeScheduleCommit userMsg rerunOld
                  (submittedRunInfo ri sub))]) := by
            rw [run_command_tail_conflicts true (some rows) ri sub userMsg
              rerunOld _ true hceq, if_neg (fun hne => hne hc)]
            rfl
          rw [houtcome]
          simp only [ledgerInv] at hinv ⊢
          rw [List.pairwise_append]
          refine ⟨hinv, List.pairwise_singleton _ _, ?_⟩
          intro r1 hr1 r2 hr2
          simp only [List.mem_singleton] at hr2
          subst hr2
          intro x hx1 hx2
          simp only [dbRowOf, submittedRunInfo, List.append_assoc,
            List.mem_append, List.mem_singleton] at hx2 ⊢
          rcases hx2 with hx2 | hx2
          · exact absurd hx1 (hdisj r1 hr1 x hx2)
          · exact Or.inr hx2
        · have houtcome : (run_command_tail true true (some rows) ri sub
              userMsg rerunOld).db = some rows := by
            rw [run_command_tail_conflicts true (some rows) ri sub userMsg
              rerunOld _ true hceq, if_pos hc]
          rw [houtcome]
          exact hinv

/-- Witness for C1 on a concrete conflicting submission. -/
theorem c1_conflict_rejection_and_invariant_witness :
    run_command_tail true true (some [exRow9]) exRiA exSubB none none =
      { result := ScheduleResult.conflictError ["9".data],
        db := some [exRow9], submitted := false, committed := none } ∧
    ledgerInv (run_command_tail true true (some []) exRiA exSubB
      none none).db := by
  constructor
  · exact (c1_conflict_rejection_and_invariant true (some [exRow9]) exRiA
      exSubB none none).1 ["9".data] true (by decide) (by decide)
  · exact (c1_conflict_rejection_and_invariant true (some []) exRiA
      exSubB none none).2 List.Pairwise.nil

/-- C1 counterexample: both submissions pass the conflict screening, yet
    afterwards the two simultaneously open rows both record the output
    path `a` — the recorded output sets of distinct open jobs are not
    disjoint, because scheduler-assigned files are appended to the
    record only after the screening. -/
theorem c1_counterexample :
    exStep1.result = ScheduleResult.ok (submittedRunInfo exRi1 exSub1) ∧
    exStep2.result = ScheduleResult.ok (submittedRunInfo exRi2 exSub2) ∧
    (exStep2.db.getD []).map (fun r => r.slurm_job_id) =
      ["1".data, "2".data] ∧
    (exStep2.db.getD []).map (fun r => r.outputs.contains "a".data) =
      [true, true] := by
  refine ⟨by decide, by decide, by decide, by decide⟩

/-- C8 counterexample: inserting a record whose scheduler job id already
    has a row yields a second row with the same id — the INSERT of
    `add_to_database` enforces no uniqueness. -/
theorem c8_counterexample :
    add_to_database true (some [exRow5]) exRi5 [] =
      some [exRow5, dbRowOf exRi5 []] ∧
    countId [exRow5, dbRowOf exRi5 []] "5".data = 2 := by
  refine ⟨by decide, by decide⟩

/-- C8 (amended): `add_to_database` appends exactly one row, so the
    per-id row count grows by one for the inserted id; the
    at-most-one-row-per-id property is preserved exactly when the
    inserted id is not already present. -/
theorem c8_insert_row_count (connOk : Bool) (db : Option (List DBRow))
    (ri : RunInfo) (m : Str) (rows : List DBRow) (j : Str)
    (h : add_to_database connOk db ri m = some rows) :
    (countId rows j = countId (db.getD []) j +
      (if ri.slurm_job_id = j then 1 else 0)) ∧
    (ri.slurm_job_id ∉ (db.getD []).map (fun r => r.slurm_job_id) →
      uniquePerId (db.getD []) → uniquePerId rows) := by
  cases connOk with
  | false =>
    have hx : add_to_database false db ri m = none := rfl
    rw [hx] at h
    cases h
  | true =>
    have hx : add_to_database true db ri m =
        some (db.getD [] ++ [dbRowOf ri m]) := rfl
    rw [hx, Option.some_inj] at h
    subst h
    constructor
    · unfold countId
      rw [List.filter_append, List.length_append]
      congr 1
      by_cases hj : ri.slurm_job_id = j
      · simp [dbRowOf, hj]
      · simp [dbRowOf, hj]
    · intro hfresh huni
      unfold uniquePerId at huni ⊢
      rw [List.map_append, List.nodup_append]
      refine ⟨huni, by simp, ?_⟩
      intro x hx2
      simp only [dbRowOf, List.map_cons, List.map_nil, List.mem_singleton]
      intro hxe
      subst hxe
      exact hfresh hx2

/-- Witness for C8 on a fresh insertion into an empty ledger. -/
theorem c8_insert_row_count_witness :
    (countId [dbRowOf exRi5 []] "5".data =
      countId ((some ([] : List DBRow)).getD []) "5".data +
        (if exRi5.slurm_job_id = "5".data then 1 else 0)) ∧
    (exRi5.slurm_job_id ∉
        ((some ([] : List DBRow)).getD []).map (fun r => r.slurm_job_id) →
      uniquePerId ((some ([] : List DBRow)).getD []) →
      uniquePerId [dbRowOf exRi5 []]) :=
  c8_insert_row_count true (some []) exRi5 [] [dbRowOf exRi5 []]
    "5".data (by decide)

/-- C10: when the connection succeeds but the `open_jobs` table does not
    exist yet, the conflict scan reports no conflicts together with a
    truthy status, and the submission proceeds: sbatch is invoked, the
    result is ok, and the ledger is created with the new row. -/
theorem c10_missing_table_soft_fail (outputs : List Str) (ri : RunInfo)
    (sub : SlurmSubmission) (userMsg : Option Str) :
    check_output_conflict true none outputs = some ([], true) ∧
    (run_command_tail true true none ri sub userMsg none).submitted =
      true ∧
    (run_command_tail true true none ri sub userMsg none).result =
      ScheduleResult.ok (submittedRunInfo ri sub) ∧
    (run_command_tail true true none ri sub userMsg none).db =
      some [dbRowOf (submittedRunInfo ri sub)
        (encodeScheduleCommit userMsg none (submittedRunInfo ri sub))] := by
  refine ⟨rfl, ?_, ?_, ?_⟩ <;>
    simp [run_command_tail, check_output_conflict, connect_to_database,
      run_command_submit, add_to_database, encodeScheduleCommit]

/-- A job status returned by the resolver always lists at least one
    task. -/
theorem get_job_status_nonempty (jid s : Str)
    (out : List (Str × Str) × Str)
    (h : get_job_status jid s = some out) : out.1 ≠ [] := by
  unfold get_job_status at h
  split at h
  · cases h
  · split at h
    · cases h
    · split at h
      · cases h
      · cases h
      · rw [Option.some_inj] at h
        subst h
        simp

/-- Every commit processed by the finish loop comes from the commit
    list it was started with. -/
theorem finishDriver_fst_mem (env : Str → Option RunInfo)
    (sacct : Str → Str) (outs : List Str) (cf : Bool) :
    ∀ (commits : List Str) (ledger : List LedgerEntry)
      (files : List Str) (p : Str × Option FinishOutcome),
      p ∈ finishDriver commits env sacct outs cf ledger files →
      p.1 ∈ commits := by
  intro commits
  induction commits with
  | nil =>
    intro ledger files p hp
    simp only [finishDriver] at hp
    cases hp
  | cons c cs ih =>
    intro ledger files p hp
    simp only [finishDriver] at hp
    split at hp
    · rcases List.mem_cons.mp hp with rfl | hp2
      · exact List.mem_cons_self _ _
      · exact List.mem_cons_of_mem _ (ih ledger files p hp2)
    · split at hp
      · rcases List.mem_cons.mp hp with rfl | hp2
        · exact List.mem_cons_self _ _
        · cases hp2
      · rcases List.mem_cons.mp hp with rfl | hp2
        · exact List.mem_cons_self _ _
        · rename_i out heq
          exact List.mem_cons_of_mem _ (ih out.ledger out.files p hp2)

/-- C7: a finish invocation on a job with a PENDING or RUNNING task
    refuses with a single error result and performs no mutation: the
    ledger rows, the working tree and the absence of a save are all
    preserved, for any close_failed setting. -/
theorem c7_pending_running_refusal (commit : Str) (ri : RunInfo)
    (outs : List Str) (cf : Bool) (sacct : Str)
    (ledger : List LedgerEntry) (files : List Str)
    (states : List (Str × Str)) (group : Str)
    (hs : get_job_status ri.slurm_job_id sacct = some (states, group))
    (hp : ∃ p ∈ states, p.2 = "PENDING".data ∨ p.2 = "RUNNING".data)
    (out : FinishOutcome)
    (h : finish_cmd_core commit ri outs cf sacct ledger files =
      some out) :
    out.ledger = ledger ∧ out.files = files ∧ out.save = none ∧
    (out.results = [FinishResult.errorNoOutputs] ∨
      out.results = [FinishResult.errorNotComplete states]) := by
  have hpr : anyPendingRunning states = true := by
    rcases hp with ⟨p, hpmem, hpe⟩
    simp only [anyPendingRunning, List.any_eq_true]
    refine ⟨p, hpmem, ?_⟩
    rcases hpe with h1 | h1 <;> simp [h1]
  have hac : allCompleted states = false := by
    rcases hp with ⟨p, hpmem, hpe⟩
    rw [Bool.eq_false_iff]
    intro hall
    have hml := List.all_eq_true.mp (by exact hall) p hpmem
    rcases hpe with h1 | h1 <;> rw [h1] at hml <;> cases hml
  unfold finish_cmd_core at h
  split at h
  · rw [Option.some_inj] at h
    subst h
    exact ⟨rfl, rfl, rfl, Or.inl rfl⟩
  · rw [hs] at h
    split at h
    · cases h
    · rename_i job_states group2 heq
      rw [Option.some_inj] at heq
      rw [Prod.mk.injEq] at heq
      obtain ⟨hjs, hg2⟩ := heq
      subst hjs
      subst hg2
      rw [hac, hpr] at h
      simp only [Bool.not_false, Bool.or_true, Bool.and_true,
        if_true] at h
      rw [Option.some_inj] at h
      subst h
      exact ⟨rfl, rfl, rfl, Or.inr rfl⟩

/-- Witness for C7 on a single pending task. -/
theorem c7_pending_running_refusal_witness :
    exOut7.ledger = exLedger7 ∧ exOut7.files = ["sl".data] ∧
    exOut7.save = none ∧
    (exOut7.results = [FinishResult.errorNoOutputs] ∨
      exOut7.results =
        [FinishResult.errorNotComplete [("7".data, "PENDING".data)]]) :=
  c7_pending_running_refusal "c".data exRiF [] true "7|PENDING".data
    exLedger7 ["sl".data] [("7".data, "PENDING".data)] "PENDING".data
    (by decide) ⟨("7".data, "PENDING".data), by decide, Or.inl rfl⟩
    exOut7 (by decide)

/-- C3 counterexample: finishing job 7, whose single task FAILED, with
    close_failed requested does delete the scheduler file and the ledger
    row, but then proceeds to a save carrying a FINISH envelope message
    `Processed batch job 7: Failed` — it does not stop at an ok result
    without a save. -/
theorem c3_counterexample :
    finish_cmd_core "c".data exRiF [] true "7|FAILED".data exLedger7
        ["sl".data, "other".data] =
      some ⟨[], [], ["other".data],
        some ⟨["sl".data], "Processed batch job 7: Failed".data⟩⟩ ∧
    (some ⟨["sl".data], "Processed batch job 7: Failed".data⟩ :
      Option SaveCall) ≠ none := by
  refine ⟨by decide, by decide⟩

/-- C3 (amended): for a job whose tasks uniformly report FAILED or
    CANCELLED, finishing with close_failed deletes the recorded
    scheduler-output files from the working tree and the job's ledger
    row, emits no result of its own, and then still performs a save of
    the declared outputs under a FINISH envelope whose message names the
    failed status — there is no commit-free ok path. -/
theorem c3_close_failed_removal (commit : Str) (ri : RunInfo)
    (outs : List Str) (sacct : Str) (ledger : List LedgerEntry)
    (files : List Str) (states : List (Str × Str)) (group : Str)
    (hs : get_job_status ri.slurm_job_id sacct = some (states, group))
    (hg : group = "FAILED".data ∨ group = "CANCELLED".data)
    (hall : ∀ p ∈ states, p.2 = group)
    (houts : outs ++ ri.outputs ≠ [])
    (out : FinishOutcome)
    (h : finish_cmd_core commit ri outs true sacct ledger files =
      some out) :
    out.results = [] ∧
    out.ledger = ledger.filter
      (fun e => e.slurm_job_id ≠ ri.slurm_job_id) ∧
    out.files = files.filter
      (fun f => !(ri.slurm_run_outputs.contains f)) ∧
    out.save = some ⟨outs ++ ri.outputs,
      finishCommitMessage ri.slurm_job_id group⟩ := by
  have hne : states ≠ [] := get_job_status_nonempty _ _ _ hs
  obtain ⟨p0, hp0⟩ : ∃ p, p ∈ states := by
    cases states with
    | nil => exact absurd rfl hne
    | cons q qs => exact ⟨q, List.mem_cons_self _ _⟩
  have hanyFC : anyFailedCancelled states = true := by
    simp only [anyFailedCancelled, List.any_eq_true]
    refine ⟨p0, hp0, ?_⟩
    rw [hall p0 hp0]
    rcases hg with h1 | h1 <;> rw [h1] <;> decide
  have hapr : anyPendingRunning states = false := by
    rw [Bool.eq_false_iff]
    intro hany
    simp only [anyPendingRunning, List.any_eq_true] at hany
    obtain ⟨p, hpm, hb⟩ := hany
    rw [hall p hpm] at hb
    rcases hg with h1 | h1 <;> rw [h1] at hb <;>
      exact absurd hb (by decide)
  have hpart : group ≠ "PARTIALLY COMPLETED".data := by
    rcases hg with h1 | h1 <;> rw [h1] <;> decide
  unfold finish_cmd_core at h
  rw [if_neg houts, hs] at h
  split at h
  · cases h
  · rename_i job_states group2 heq
    rw [Option.some_inj, Prod.mk.injEq] at heq
    obtain ⟨hjs, hg2⟩ := heq
    subst hjs
    subst hg2
    rw [hapr] at h
    simp only [Bool.not_true, Bool.false_or, Bool.and_false,
      Bool.false_eq_true, if_false] at h
    rw [Option.some_inj] at h
    subst h
    refine ⟨?_, rfl, ?_, ?_⟩
    · simp only [if_neg hpart]
    · simp only [if_neg hpart, if_pos hanyFC]
    · simp only [if_neg hpart]

/-- Witness for C3 on the concrete failed job 7. -/
theorem c3_close_failed_removal_witness :
    (FinishOutcome.mk [] [] ["other".data]
        (some ⟨["sl".data],
          "Processed batch job 7: Failed".data⟩)).results = [] ∧
    (FinishOutcome.mk [] [] ["other".data]
        (some ⟨["sl".data],
          "Processed batch job 7: Failed".data⟩)).ledger =
      exLedger7.filter (fun e => e.slurm_job_id ≠ exRiF.slurm_job_id) ∧
    (FinishOutcome.mk [] [] ["other".data]
        (some ⟨["sl".data],
          "Processed batch job 7: Failed".data⟩)).files =
      (["sl".data, "other".data]).filter
        (fun f => !(exRiF.slurm_run_outputs.contains f)) ∧
    (FinishOutcome.mk [] [] ["other".data]
        (some ⟨["sl".data],
          "Processed batch job 7: Failed".data⟩)).save =
      some ⟨[] ++ exRiF.outputs,
        finishCommitMessage exRiF.slurm_job_id "FAILED".data⟩ :=
  c3_close_failed_removal "c".data exRiF [] "7|FAILED".data exLedger7
    ["sl".data, "other".data] [("7".data, "FAILED".data)] "FAILED".data
    (by decide) (Or.inl rfl)
    (by intro p hp; rcases List.mem_singleton.mp hp with rfl; rfl)
    (by decide)
    (FinishOutcome.mk [] [] ["other".data]
      (some ⟨["sl".data], "Processed batch job 7: Failed".data⟩))
    (by decide)

/-- C6 counterexample: when the finished job's row is gone and no other
    job is open, a second `finish` invocation produces no result records
    at all — in particular it does not report "nothing to finish". -/
theorem c6_counterexample :
    finish_no_commit none (fun _ => none) (fun _ => []) [] false [] [] =
      some [] := rfl

/-- C6 (amended): a finish invocation only iterates the commits of rows
    still open in the ledger, so a job whose row was already removed is
    silently skipped: no result mentions its commit, nothing is saved
    for it, and no error is raised on the missing row; with no open rows
    the invocation yields no results at all. -/
theorem c6_absent_job_skipped (ledger : List LedgerEntry)
    (env : Str → Option RunInfo) (sacct : Str → Str)
    (outs : List Str) (cf : Bool) (files : List Str) (c : Str)
    (res : List (Str × Option FinishOutcome))
    (hc : c ∉ ledger.map (fun e => e.commit_id))
    (h : finish_no_commit none env sacct outs cf ledger files =
      some res) :
    (∀ p ∈ res, p.1 ≠ c) ∧ (ledger = [] → res = []) := by
  have hred : finish_no_commit none env sacct outs cf ledger files =
      some (finishDriver (ledger.map (fun e => e.commit_id)) env sacct
        outs cf ledger files) := rfl
  rw [hred, Option.some_inj] at h
  constructor
  · intro p hp hpc
    have hmem := finishDriver_fst_mem env sacct outs cf
      (ledger.map (fun e => e.commit_id)) ledger files p (by rw [h]; exact hp)
    rw [hpc] at hmem
    exact hc hmem
  · intro hl
    subst hl
    rw [← h]
    rfl

/-- Witness for C6 on the empty ledger. -/
theorem c6_absent_job_skipped_witness :
    (∀ p ∈ ([] : List (Str × Option FinishOutcome)), p.1 ≠ "x".data) ∧
    (([] : List LedgerEntry) = [] →
      ([] : List (Str × Option FinishOutcome)) = []) :=
  c6_absent_job_skipped [] (fun _ => none) (fun _ => []) [] false []
    "x".data [] (by simp) rfl

/-- A list is a `isPrefixOf` of itself followed by anything. -/
theorem isPrefixOf_append_self : ∀ (l r : List Char),
    l.isPrefixOf (l ++ r) = true := by
  intro l
  induction l with
  | nil => intro r; simp [List.isPrefixOf]
  | cons a as ih =>
    intro r
    simp only [List.cons_append, List.isPrefixOf, Bool.and_eq_true]
    exact ⟨beq_self_eq_true a, ih r⟩

/-- A prefix is no longer than the list. -/
theorem isPrefixOf_length_le : ∀ (p l : List Char),
    p.isPrefixOf l = true → p.length ≤ l.length := by
  intro p
  induction p with
  | nil => intro l _; simp
  | cons a as ih =>
    intro l h
    cases l with
    | nil => cases h
    | cons b bs =>
      simp only [List.isPrefixOf, Bool.and_eq_true] at h
      simpa using ih bs h.2

/-- Dropping while a predicate holds skips a fully satisfying chunk. -/
theorem dropWhile_append_all (p : Char → Bool) :
    ∀ (a b : List Char), a.all p = true →
      (a ++ b).dropWhile p = b.dropWhile p := by
  intro a
  induction a with
  | nil => intro b _; rfl
  | cons x xs ih =>
    intro b h
    simp only [List.all_cons, Bool.and_eq_true] at h
    simp only [List.cons_append, List.dropWhile, h.1]
    exact ih b h.2

/-- Taking while a predicate holds keeps a fully satisfying chunk. -/
theorem takeWhile_append_all (p : Char → Bool) :
    ∀ (a b : List Char), a.all p = true →
      (a ++ b).takeWhile p = a ++ b.takeWhile p := by
  intro a
  induction a with
  | nil => intro b _; rfl
  | cons x xs ih =>
    intro b h
    simp only [List.all_cons, Bool.and_eq_true] at h
    simp only [List.cons_append, List.takeWhile, h.1, List.append_eq]
    rw [ih b h.2]

/-- An empty takeWhile forces an identity dropWhile. -/
theorem dropWhile_eq_self_of_takeWhile_nil (p : Char → Bool) :
    ∀ (l : List Char), l.takeWhile p = [] → l.dropWhile p = l := by
  intro l h
  cases l with
  | nil => rfl
  | cons x xs =>
    by_cases hp : p x
    · simp [List.takeWhile, hp] at h
    · simp [List.dropWhile, hp]

/-- Expecting a literal prefix consumes exactly it. -/
theorem parseLit_pref (lit rest : Str) :
    parseLit lit (lit ++ rest) = some rest := by
  unfold parseLit
  rw [isPrefixOf_append_self]
  simp [List.drop_left]

/-- Trailing whitespace is invisible to rstrip. -/
theorem rstrip_append_ws (a b : Str) (hb : b.all isPySpace = true) :
    rstrip (a ++ b) = rstrip a := by
  unfold rstrip
  rw [List.reverse_append, dropWhile_append_all isPySpace b.reverse
    a.reverse (by simpa using hb)]

/-- rstrip keeps a string ending in a non-whitespace character. -/
theorem rstrip_snoc_nonws (a : Str) (c : Char)
    (hc : isPySpace c = false) : rstrip (a ++ [c]) = a ++ [c] := by
  unfold rstrip
  rw [List.reverse_append]
  simp only [List.reverse_cons, List.reverse_nil, List.nil_append,
    List.singleton_append, List.dropWhile_cons, hc]
  simp

/-- One-step equations for the string reader. -/
theorem pjsa_quote (t acc : Str) :
    parseJStringAux ('"' :: t) acc = some (acc.reverse, t) := by
  rw [parseJStringAux.eq_def]
  simp

/-- Escaped quote step. -/
theorem pjsa_esc_quote (t acc : Str) :
    parseJStringAux ('\\' :: '"' :: t) acc =
      parseJStringAux t ('"' :: acc) := by
  rw [parseJStringAux.eq_def]
  simp

/-- Escaped backslash step. -/
theorem pjsa_esc_bs (t acc : Str) :
    parseJStringAux ('\\' :: '\\' :: t) acc =
      parseJStringAux t ('\\' :: acc) := by
  rw [parseJStringAux.eq_def]
  simp

/-- Escaped newline step. -/
theorem pjsa_esc_nl (t acc : Str) :
    parseJStringAux ('\\' :: 'n' :: t) acc =
      parseJStringAux t ('\n' :: acc) := by
  rw [parseJStringAux.eq_def]
  simp

/-- Escaped tab step. -/
theorem pjsa_esc_tab (t acc : Str) :
    parseJStringAux ('\\' :: 't' :: t) acc =
      parseJStringAux t ('\t' :: acc) := by
  rw [parseJStringAux.eq_def]
  simp

/-- Escaped carriage-return step. -/
theorem pjsa_esc_cr (t acc : Str) :
    parseJStringAux ('\\' :: 'r' :: t) acc =
      parseJStringAux t ('\x0d' :: acc) := by
  rw [parseJStringAux.eq_def]
  simp

/-- Plain character step. -/
theorem pjsa_other (c : Char) (t acc : Str) (h1 : c ≠ '"')
    (h2 : c ≠ '\\') :
    parseJStringAux (c :: t) acc = parseJStringAux t (c :: acc) := by
  rw [parseJStringAux.eq_def]
  simp [h1, h2]

/-- Escape-expansion equations, append form. -/
theorem escChar_quote_append (t : Str) :
    escChar '"' ++ t = '\\' :: '"' :: t := by
  simp [escChar]

/-- Backslash escape, append form. -/
theorem escChar_bs_append (t : Str) :
    escChar '\\' ++ t = '\\' :: '\\' :: t := by
  simp [escChar]

/-- Newline escape, append form. -/
theorem escChar_nl_append (t : Str) :
    escChar '\n' ++ t = '\\' :: 'n' :: t := by
  simp [escChar]

/-- Tab escape, append form. -/
theorem escChar_tab_append (t : Str) :
    escChar '\t' ++ t = '\\' :: 't' :: t := by
  simp [escChar]

/-- Carriage-return escape, append form. -/
theorem escChar_cr_append (t : Str) :
    escChar '\x0d' ++ t = '\\' :: 'r' :: t := by
  simp [escChar]

/-- Unescaped character, append form. -/
theorem escChar_other_append (c : Char) (t : Str) (h1 : c ≠ '"')
    (h2 : c ≠ '\\') (h3 : c ≠ '\n') (h4 : c ≠ '\t')
    (h5 : c ≠ '\x0d') : escChar c ++ t = c :: t := by
  simp only [escChar, if_neg h1, if_neg h2, if_neg h3, if_neg h4,
    if_neg h5, List.singleton_append]

/-- Reading back an escaped string stops at the closing quote and undoes
    every escape `escChar` produced. -/
theorem parseJStringAux_esc : ∀ (v acc rest : Str),
    parseJStringAux (v.flatMap escChar ++ '"' :: rest) acc =
      some (acc.reverse ++ v, rest) := by
  intro v
  induction v with
  | nil =>
    intro acc rest
    rw [List.flatMap_nil, List.nil_append, pjsa_quote]
    simp
  | cons c cs ih =>
    intro acc rest
    rw [List.flatMap_cons, List.append_assoc]
    by_cases h1 : c = '"'
    · subst h1
      rw [escChar_quote_append, pjsa_esc_quote, ih]
      simp
    · by_cases h2 : c = '\\'
      · subst h2
        rw [escChar_bs_append, pjsa_esc_bs, ih]
        simp
      · by_cases h3 : c = '\n'
        · subst h3
          rw [escChar_nl_append, pjsa_esc_nl, ih]
          simp
        · by_cases h4 : c = '\t'
          · subst h4
            rw [escChar_tab_append, pjsa_esc_tab, ih]
            simp
          · by_cases h5 : c = '\x0d'
            · subst h5
              rw [escChar_cr_append, pjsa_esc_cr, ih]
              simp
            · rw [escChar_other_append c _ h1 h2 h3 h4 h5,
                pjsa_other c _ acc h1 h2, ih]
              simp

/-- JSON string round trip. -/
theorem parseJStringTop_round (v rest : Str) :
    parseJStringTop (jsonStr v ++ rest) = some (v, rest) := by
  have hshape : jsonStr v ++ rest =
      '"' :: (v.flatMap escChar ++ '"' :: rest) := by
    unfold jsonStr
    simp [List.append_assoc]
  rw [hshape]
  show parseJStringAux (v.flatMap escChar ++ '"' :: rest) [] =
    some (v, rest)
  rw [parseJStringAux_esc v [] rest]
  simp

/-- Appending digit runs composes the accumulator. -/
theorem parseNatAux_append : ∀ (a b : Str) (acc : Nat),
    parseNatAux (a ++ b) acc = parseNatAux b (parseNatAux a acc) := by
  intro a
  induction a with
  | nil => intro b acc; rfl
  | cons c cs ih =>
    intro b acc
    simp only [List.cons_append, parseNatAux]
    exact ih b _

/-- The digit character of a remainder reads back as itself. -/
theorem charDigit_toNat (k : Nat) (h : k < 10) :
    (Char.ofNat (48 + k)).toNat = 48 + k := by
  interval_cases k <;> decide

/-- The digit character of a remainder is a digit. -/
theorem charDigit_isDigit (k : Nat) (h : k < 10) :
    isDigitL (Char.ofNat (48 + k)) = true := by
  interval_cases k <;> decide

/-- Every character `natDigits` produces is a digit. -/
theorem natDigits_all_digits : ∀ (fuel n : Nat),
    (natDigits fuel n).all isDigitL = true := by
  intro fuel
  induction fuel with
  | zero => intro n; rfl
  | succ f ih =>
    intro n
    by_cases h : n = 0
    · simp [natDigits, h]
    · simp only [natDigits, if_neg h, List.all_append]
      rw [ih (n / 10)]
      simp [charDigit_isDigit (n % 10) (Nat.mod_lt _ (by norm_num))]

/-- Every character `natToStr` produces is a digit. -/
theorem natToStr_all_digits (n : Nat) :
    (natToStr n).all isDigitL = true := by
  by_cases h : n = 0
  · simp [natToStr, h, isDigitL]
  · simp only [natToStr, if_neg h]
    exact natDigits_all_digits (n + 1) n

/-- The rendering of a non-negative integer is never empty. -/
theorem natToStr_ne_nil (n : Nat) : natToStr n ≠ [] := by
  by_cases h : n = 0
  · simp [natToStr, h]
  · simp only [natToStr, if_neg h]
    cases hn : natDigits (n + 1) n with
    | nil =>
      exfalso
      simp only [natDigits, if_neg h] at hn
      exact absurd hn (by simp)
    | cons a t => simp

/-- Reading back the digit run of `natDigits` recovers the number. -/
theorem parseNatAux_natDigits : ∀ (fuel n acc : Nat), n < 10 ^ fuel →
    parseNatAux (natDigits fuel n) acc =
      acc * 10 ^ (natDigits fuel n).length + n := by
  intro fuel
  induction fuel with
  | zero =>
    intro n acc h
    interval_cases n
    simp [natDigits, parseNatAux]
  | succ f ih =>
    intro n acc h
    by_cases hz : n = 0
    · simp [natDigits, hz, parseNatAux]
    · simp only [natDigits, if_neg hz]
      rw [parseNatAux_append, List.length_append]
      have hdiv : n / 10 < 10 ^ f := by
        rw [Nat.div_lt_iff_lt_mul (by norm_num)]
        calc n < 10 ^ (f + 1) := h
        _ = 10 ^ f * 10 := by ring
      rw [ih (n / 10) acc hdiv]
      simp only [parseNatAux, List.length_cons, List.length_nil]
      rw [charDigit_toNat (n % 10) (Nat.mod_lt _ (by norm_num))]
      have hmod : 48 + n % 10 - 48 = n % 10 := by omega
      rw [hmod]
      have hnm : 10 * (n / 10) + n % 10 = n := Nat.div_add_mod n 10
      have hpow : 10 ^ ((natDigits f (n / 10)).length + (0 + 1)) =
          10 ^ (natDigits f (n / 10)).length * 10 := by
        rw [Nat.zero_add, pow_succ]
      rw [hpow]
      ring_nf
      omega

/-- str round trip for non-negative integers. -/
theorem parseNatAux_natToStr (n : Nat) :
    parseNatAux (natToStr n) 0 = n := by
  by_cases h : n = 0
  · simp [natToStr, h, parseNatAux]
  · simp only [natToStr, if_neg h]
    rw [parseNatAux_natDigits (n + 1) n 0
      (lt_of_lt_of_le (Nat.lt_two_pow n) (by
        calc (2 : Nat) ^ n ≤ 10 ^ n := Nat.pow_le_pow_left (by norm_num) n
        _ ≤ 10 ^ (n + 1) := Nat.pow_le_pow_right (by norm_num) (by omega)))]
    simp

/-- JSON integer token round trip, provided the remainder does not start
    with another digit. -/
theorem parseNatTok_round (n : Nat) (rest : Str)
    (h0 : rest.takeWhile isDigitL = []) :
    parseNatTok (natToStr n ++ rest) = some (n, rest) := by
  unfold parseNatTok
  rw [takeWhile_append_all isDigitL (natToStr n) rest
    (natToStr_all_digits n), h0, List.append_nil]
  rw [if_neg (by simpa using natToStr_ne_nil n)]
  rw [dropWhile_append_all isDigitL (natToStr n) rest
    (natToStr_all_digits n),
    dropWhile_eq_self_of_takeWhile_nil isDigitL rest h0,
    parseNatAux_natToStr]

/-- A serialized JSON string spans at least its two quotes. -/
theorem jsonStr_length_ge (v : Str) : 2 ≤ (jsonStr v).length := by
  simp only [jsonStr, List.length_cons, List.length_append,
    List.length_singleton]
  omega

/-- The comma separator is not a prefix of the list terminator. -/
theorem comma_not_prefix_term (rest : Str) :
    (",\n".data : Str).isPrefixOf ("\n ]".data ++ rest) = false := by
  rw [show (",\n".data : Str) = ',' :: ['\n'] from rfl,
    show ("\n ]".data : Str) ++ rest = '\n' :: (" ]".data ++ rest)
      from rfl]
  simp [List.isPrefixOf]

/-- Unfolding equation of the list-body reader at positive fuel. -/
theorem parseStrListAux_succ (f : Nat) (s : Str) (acc : List Str) :
    parseStrListAux (f + 1) s acc =
      match parseLit "  ".data s with
      | none => none
      | some s1 =>
        match parseJStringTop s1 with
        | none => none
        | some (v, s2) =>
          if ",\n".data.isPrefixOf s2 then
            parseStrListAux f (s2.drop 2) (v :: acc)
          else
            match parseLit "\n ]".data s2 with
            | none => none
            | some s3 => some ((v :: acc).reverse, s3) := rfl

/-- Element-wise round trip of the indent-1 string-list body. -/
theorem parseStrListAux_round : ∀ (xs : List Str) (x : Str)
    (acc : List Str) (rest : Str) (fuel : Nat),
    (joinSep (",\n".data)
        ((x :: xs).map (fun s => "  ".data ++ jsonStr s)) ++
      ("\n ]".data ++ rest)).length ≤ fuel →
    parseStrListAux fuel
      (joinSep (",\n".data)
          ((x :: xs).map (fun s => "  ".data ++ jsonStr s)) ++
        ("\n ]".data ++ rest)) acc =
      some (acc.reverse ++ x :: xs, rest) := by
  intro xs
  induction xs with
  | nil =>
    intro x acc rest fuel hf
    simp only [List.map_cons, List.map_nil, joinSep] at hf ⊢
    cases fuel with
    | zero =>
      exfalso
      simp [List.length_append] at hf
    | succ f =>
      simp only [List.append_assoc, parseStrListAux_succ, parseLit_pref,
        parseJStringTop_round, comma_not_prefix_term,
        Bool.false_eq_true, if_false]
      simp
  | cons y ys ih =>
    intro x acc rest fuel hf
    have hjoin : joinSep (",\n".data)
        ((x :: y :: ys).map (fun s => "  ".data ++ jsonStr s)) =
        ("  ".data ++ jsonStr x) ++ (",\n".data ++
          joinSep (",\n".data)
            ((y :: ys).map (fun s => "  ".data ++ jsonStr s))) := by
      simp only [List.map_cons, joinSep, List.append_assoc]
    rw [hjoin] at hf ⊢
    cases fuel with
    | zero =>
      exfalso
      simp [List.length_append] at hf
    | succ f =>
      have hdrop : (((",\n".data : Str)) ++
          (joinSep (",\n".data)
            ((y :: ys).map (fun s => "  ".data ++ jsonStr s)) ++
            ("\n ]".data ++ rest))).drop 2 =
          joinSep (",\n".data)
            ((y :: ys).map (fun s => "  ".data ++ jsonStr s)) ++
            ("\n ]".data ++ rest) := by
        rw [show (2 : Nat) = ((",\n".data : Str)).length from rfl]
        exact List.drop_left _ _
      have hlen : (joinSep (",\n".data)
          ((y :: ys).map (fun s => "  ".data ++ jsonStr s)) ++
          ("\n ]".data ++ rest)).length ≤ f := by
        have hjl := jsonStr_length_ge x
        simp [List.length_append] at hf ⊢
        omega
      simp only [List.append_assoc, parseStrListAux_succ, parseLit_pref,
        parseJStringTop_round, isPrefixOf_append_self, if_true, hdrop]
      rw [ih y (x :: acc) rest f hlen]
      simp

/-- String-list round trip at nesting depth one. -/
theorem parseStrList_round (xs : List Str) (rest : Str) :
    parseStrList (jsonStrList xs ++ rest) = some (xs, rest) := by
  cases xs with
  | nil => rfl
  | cons x t =>
    have hshape : jsonStrList (x :: t) ++ rest =
        '[' :: '\n' :: (joinSep (",\n".data)
          ((x :: t).map (fun s => "  ".data ++ jsonStr s)) ++
            ("\n ]".data ++ rest)) := by
      simp only [jsonStrList]
      simp [List.append_assoc]
    rw [hshape]
    show parseStrListAux
        (joinSep (",\n".data)
          ((x :: t).map (fun s => "  ".data ++ jsonStr s)) ++
            ("\n ]".data ++ rest)).length
        (joinSep (",\n".data)
          ((x :: t).map (fun s => "  ".data ++ jsonStr s)) ++
            ("\n ]".data ++ rest)) [] = some (x :: t, rest)
    rw [parseStrListAux_round t x [] rest _ (le_refl _)]
    simp

/-- A literal consumes exactly itself. -/
theorem parseLit_self (lit : Str) : parseLit lit lit = some [] := by
  have h := isPrefixOf_append_self lit []
  rw [List.append_nil] at h
  unfold parseLit
  rw [h]
  simp

/-- List-field step round trip. -/
theorem stepList_round (lit : Str) (upd : RunInfo → List Str → RunInfo)
    (r0 : RunInfo) (v : List Str) (rest : Str) :
    stepList lit upd (r0, lit ++ (jsonStrList v ++ rest)) =
      some (upd r0 v, rest) := by
  simp [stepList, parseLit_pref, parseStrList_round]

/-- String-field step round trip. -/
theorem stepStr_round (lit : Str) (upd : RunInfo → Str → RunInfo)
    (r0 : RunInfo) (v : Str) (rest : Str) :
    stepStr lit upd (r0, lit ++ (jsonStr v ++ rest)) =
      some (upd r0 v, rest) := by
  simp [stepStr, parseLit_pref, parseJStringTop_round]

/-- Integer-field step round trip, specialized to the follower the
    serializer emits after the exit code. -/
theorem stepNat_round_exit (lit : Str) (upd : RunInfo → Nat → RunInfo)
    (r0 : RunInfo) (n : Nat) (rest : Str) :
    stepNat lit upd
        (r0, lit ++ (natToStr n ++ (",\n \"extra_inputs\": ".data ++
          rest))) =
      some (upd r0 n, ",\n \"extra_inputs\": ".data ++ rest) := by
  have h0 : ((",\n \"extra_inputs\": ".data : Str) ++
      rest).takeWhile isDigitL = [] := by
    rw [show ((",\n \"extra_inputs\": ".data : Str)) ++ rest =
      ',' :: ("\n \"extra_inputs\": ".data ++ rest) from rfl]
    simp [List.takeWhile, isDigitL]
  simp only [stepNat, parseLit_pref,
    parseNatTok_round n (",\n \"extra_inputs\": ".data ++ rest) h0]

/-- Payload round trip: parsing the serialized run record recovers it
    exactly. -/
theorem parseRunInfo_round (r : RunInfo) :
    parseRunInfo (serializeRunInfo r) = some r := by
  obtain ⟨cm, ch, inp, ext, out, pw, ds, ex, sro, sid⟩ := r
  have hshape : serializeRunInfo ⟨cm, ch, inp, ext, out, pw, ds, ex,
      sro, sid⟩ =
      ([lbrace, '\n'] ++ " \"chain\": ".data) ++ (jsonStrList ch ++
      ((",\n \"cmd\": ".data) ++ (jsonStr cm ++
      ((",\n \"dsid\": ".data) ++ (jsonStr ds ++
      ((",\n \"exit\": ".data) ++ (natToStr ex ++
      ((",\n \"extra_inputs\": ".data) ++ (jsonStrList ext ++
      ((",\n \"inputs\": ".data) ++ (jsonStrList inp ++
      ((",\n \"outputs\": ".data) ++ (jsonStrList out ++
      ((",\n \"pwd\": ".data) ++ (jsonStr pw ++
      ((",\n \"slurm_job_id\": ".data) ++ (jsonStr sid ++
      ((",\n \"slurm_run_outputs\": ".data) ++ (jsonStrList sro ++
      ('\n' :: [rbrace])))))))))))))))))))) := by
    simp [serializeRunInfo, joinSep, List.append_assoc]
  rw [parseRunInfo, pRI10, pRI9, pRI8, pRI7, pRI6, pRI5, pRI4, pRI3,
    pRI2, pRI1, hshape]
  rw [stepList_round, Option.some_bind, stepStr_round, Option.some_bind,
    stepStr_round, Option.some_bind, stepNat_round_exit, Option.some_bind,
    stepList_round, Option.some_bind, stepList_round, Option.some_bind,
    stepList_round, Option.some_bind, stepStr_round, Option.some_bind,
    stepStr_round, Option.some_bind, stepList_round, Option.some_bind]
  rfl

/-- Membership in the occurrence list. -/
theorem mem_occs (pat xs : Str) (i : Nat) :
    i ∈ occs pat xs ↔
      i < xs.length + 1 ∧ pat.isPrefixOf (xs.drop i) = true := by
  simp [occs, List.mem_filter, List.mem_range]

/-- Occurrence lists are strictly ascending. -/
theorem occs_sorted (pat xs : Str) : (occs pat xs).Pairwise (· < ·) :=
  List.Pairwise.filter _ (List.pairwise_lt_range _)

/-- In a strictly ascending list the last entry is the maximum. -/
theorem getLast_eq_of_max : ∀ (l : List Nat) (a : Nat),
    l.Pairwise (· < ·) → a ∈ l → (∀ b ∈ l, b ≤ a) → l.getLast? = some a
  | [], a, _, ha, _ => absurd ha (List.not_mem_nil a)
  | [x], a, _, ha, _ => by
    rw [List.mem_singleton] at ha
    rw [ha]
    rfl
  | x :: y :: ys, a, hs, ha, hmax => by
    rw [List.pairwise_cons] at hs
    have hxy : x < y := hs.1 y (List.mem_cons_self y ys)
    have ha2 : a ∈ y :: ys := by
      rcases List.mem_cons.mp ha with h | h
      · exfalso
        have hy := hmax y (List.mem_cons_of_mem x (List.mem_cons_self y ys))
        omega
      · exact h
    rw [List.getLast?_cons_cons]
    exact getLast_eq_of_max (y :: ys) a hs.2 ha2
      (fun b hb => hmax b (List.mem_cons_of_mem x hb))

/-- The envelope split recovers the message and payload groups whenever
    the marker line occurs only at its intended position. -/
theorem decodeEnvelopeBody_round (pre payload : Str)
    (H : occs sepMarker
        (pre ++ (sepMarker ++ (payload ++ (footMarker ++ ['\n'])))) =
      [pre.length]) :
    decodeEnvelopeBody
        (pre ++ (sepMarker ++ (payload ++ (footMarker ++ ['\n'])))) =
      some (pre, payload) := by
  have hA : ((pre ++ sepMarker) ++ payload).length
      = pre.length + sepMarker.length + payload.length := by
    simp only [List.length_append]
  have hb : pre ++ (sepMarker ++ (payload ++ (footMarker ++ ['\n'])))
      = ((pre ++ sepMarker) ++ payload) ++ (footMarker ++ ['\n']) := by
    simp [List.append_assoc]
  have hb2 : pre ++ (sepMarker ++ (payload ++ (footMarker ++ ['\n'])))
      = (pre ++ sepMarker) ++ (payload ++ (footMarker ++ ['\n'])) := by
    simp [List.append_assoc]
  have hlenbody :
      (pre ++ (sepMarker ++ (payload ++ (footMarker ++ ['\n'])))).length
      = pre.length + sepMarker.length + payload.length
        + footMarker.length + 1 := by
    simp only [List.length_append, List.length_cons, List.length_nil]
    omega
  have hj0mem : pre.length + sepMarker.length + payload.length
      ∈ occs footMarker
        (pre ++ (sepMarker ++ (payload ++ (footMarker ++ ['\n'])))) := by
    rw [mem_occs]
    constructor
    · rw [hlenbody]; omega
    · rw [hb, List.drop_left' hA]
      exact isPrefixOf_append_self footMarker ['\n']
  have hmaxfoot : ∀ j ∈ occs footMarker
      (pre ++ (sepMarker ++ (payload ++ (footMarker ++ ['\n'])))),
      j ≤ pre.length + sepMarker.length + payload.length := by
    intro j hj
    rw [mem_occs] at hj
    by_contra hgt
    push_neg at hgt
    have hsplit : j = ((pre ++ sepMarker) ++ payload).length
        + (j - (pre.length + sepMarker.length + payload.length)) := by
      rw [hA]; omega
    have h2 := hj.2
    rw [hb, hsplit, List.drop_append] at h2
    rcases Nat.lt_or_ge
        (j - (pre.length + sepMarker.length + payload.length)) 2 with hk | hk
    · have hk1 : j - (pre.length + sepMarker.length + payload.length)
          = 1 := by omega
      rw [hk1] at h2
      revert h2
      decide
    · have hle := isPrefixOf_length_le _ _ h2
      rw [List.length_drop, List.length_append, List.length_cons,
        List.length_nil] at hle
      have hfoot : footMarker.length = 34 := by rfl
      rw [hfoot] at hle
      omega
  have hFFmem : pre.length + sepMarker.length + payload.length ∈
      (occs footMarker
        (pre ++ (sepMarker ++ (payload ++ (footMarker ++ ['\n']))))).filter
        (fun j => pre.length + sepMarker.length ≤ j) := by
    apply List.mem_filter.mpr
    exact ⟨hj0mem, decide_eq_true (by omega)⟩
  have hFFne : ((occs footMarker
      (pre ++ (sepMarker ++ (payload ++ (footMarker ++ ['\n']))))).filter
      (fun j => pre.length + sepMarker.length ≤ j)) ≠ [] :=
    List.ne_nil_of_mem hFFmem
  have houter : (([pre.length] : List Nat).filter
      (fun i => ((occs footMarker
        (pre ++ (sepMarker ++ (payload ++ (footMarker ++ ['\n']))))).filter
        (fun j => i + sepMarker.length ≤ j)) ≠ [])) = [pre.length] := by
    simp only [List.filter_cons, List.filter_nil]
    rw [decide_eq_true hFFne]
    rfl
  have hlast : ((occs footMarker
      (pre ++ (sepMarker ++ (payload ++ (footMarker ++ ['\n']))))).filter
      (fun j => pre.length + sepMarker.length ≤ j)).getLast? =
      some (pre.length + sepMarker.length + payload.length) := by
    apply getLast_eq_of_max
    · exact List.Pairwise.filter _ (occs_sorted _ _)
    · exact hFFmem
    · intro b hb3
      exact hmaxfoot b (List.mem_filter.mp hb3).1
  have htake :
      (pre ++ (sepMarker ++ (payload ++ (footMarker ++ ['\n'])))).take
        pre.length = pre :=
    List.take_left' rfl
  have hdrop2 :
      ((pre ++ (sepMarker ++ (payload ++ (footMarker ++ ['\n'])))).drop
        (pre.length + sepMarker.length)).take payload.length = payload := by
    rw [hb2, List.drop_left' (by simp [List.length_append]),
      List.take_left' rfl]
  unfold decodeEnvelopeBody
  rw [H, houter]
  simp [hlast, htake, hdrop2]

/-- The user message written into a schedule envelope, in snoc form:
    it ends in the non-whitespace letter of "Pending". -/
theorem scheduleUserMessage_snoc (M jid : Str) :
    scheduleUserMessage (some M) jid none =
      (M ++ '\n' :: ' ' ::
        ("Submitted batch job ".data ++ jid ++ ": Pendin".data)) ++
        ['g'] := by
  have hpend : pendingCore jid =
      ("Submitted batch job ".data ++ jid ++ ": Pendin".data) ++ ['g'] := by
    unfold pendingCore
    rw [show (": Pending".data : Str) = ": Pendin".data ++ ['g'] from rfl]
    simp [List.append_assoc]
  show M ++ '\n' :: ' ' :: pendingCore jid = _
  rw [hpend]
  simp [List.append_assoc]

/-- The schedule envelope body in split form: message group (with its
    trailing blank line), marker, payload, footer. -/
theorem scheduleEnvelopeBody_split (M : Str) (r : RunInfo) :
    scheduleEnvelopeBody (some M) r =
      (scheduleUserMessage (some M) r.slurm_job_id none ++ ['\n', '\n']) ++
        (sepMarker ++ (serializeRunInfo r ++ (footMarker ++ ['\n']))) := by
  simp [scheduleEnvelopeBody, List.append_assoc]

/-- Round trip of the schedule commit text, given that the protected-
    block marker occurs only at its intended position in the body: the
    run record is recovered exactly, and the message group decodes to
    the user message with the appended Pending status line. -/
theorem schedule_round_trip (M : Str) (r : RunInfo)
    (H : occs sepMarker (scheduleEnvelopeBody (some M) r) =
      [(scheduleUserMessage (some M) r.slurm_job_id none).length + 2]) :
    get_schedule_info_model true (encodeScheduleCommit (some M) none r) =
      some (M ++ '\n' :: ' ' :: pendingCore r.slurm_job_id, r) := by
  have hlen2 : (scheduleUserMessage (some M) r.slurm_job_id none ++
      ['\n', '\n']).length =
      (scheduleUserMessage (some M) r.slurm_job_id none).length + 2 := by
    simp
  have H2 : occs sepMarker
      ((scheduleUserMessage (some M) r.slurm_job_id none ++ ['\n', '\n']) ++
        (sepMarker ++ (serializeRunInfo r ++ (footMarker ++ ['\n'])))) =
      [(scheduleUserMessage (some M) r.slurm_job_id none ++
        ['\n', '\n']).length] := by
    rw [← scheduleEnvelopeBody_split, H, hlen2]
  have hdec2 : decodeEnvelopeBody (scheduleEnvelopeBody (some M) r) =
      some (scheduleUserMessage (some M) r.slurm_job_id none ++
        ['\n', '\n'], serializeRunInfo r) := by
    rw [scheduleEnvelopeBody_split]
    exact decodeEnvelopeBody_round _ _ H2
  have henc : encodeScheduleCommit (some M) none r =
      "[DATALAD SCHEDULE] ".data ++ scheduleEnvelopeBody (some M) r := by
    simp [encodeScheduleCommit, encodeEnvelope, schedHeader,
      scheduleEnvelopeBody, List.append_assoc]
  have hstrip : stripHeader true (encodeScheduleCommit (some M) none r) =
      some (scheduleEnvelopeBody (some M) r) := by
    rw [henc]
    unfold stripHeader
    rw [isPrefixOf_append_self]
    rw [if_pos rfl]
    rw [List.drop_left]
  have hrs : rstrip (scheduleUserMessage (some M) r.slurm_job_id none ++
      ['\n', '\n']) = M ++ '\n' :: ' ' :: pendingCore r.slurm_job_id := by
    rw [rstrip_append_ws _ _ (by decide)]
    rw [scheduleUserMessage_snoc]
    rw [rstrip_snoc_nonws _ _ (by decide)]
    rw [← scheduleUserMessage_snoc]
    rfl
  unfold get_schedule_info_model
  rw [hstrip]
  simp [hdec2, parseRunInfo_round, hrs]

/-- C5: the claimed round trip `decode(encode(R, M)) == (M, R)` does not
    hold: already for a one-letter command, empty lists and job id "7"
    with message "hi", decoding the schedule commit does not return the
    pair (M, R) — the message comes back with the appended status line. -/
theorem c5_counterexample :
    get_schedule_info_model true
        (encodeScheduleCommit (some "hi".data) none exR5c) ≠
      some ("hi".data, exR5c) := by
  rw [schedule_round_trip "hi".data exR5c (by decide)]
  decide

/-- C5 (amended): the run record survives the round trip exactly, but
    the message group decodes to the user message with the submission
    status line appended: whenever the protected-block marker occurs
    only at its intended position in the envelope body, decoding the
    schedule commit for message M and record R yields
    (M ++ "\n Submitted batch job <id>: Pending", R). -/
theorem c5_envelope_round_trip (M : Str) (r : RunInfo)
    (H : occs sepMarker (scheduleEnvelopeBody (some M) r) =
      [(scheduleUserMessage (some M) r.slurm_job_id none).length + 2]) :
    get_schedule_info_model true (encodeScheduleCommit (some M) none r) =
      some (M ++ '\n' :: ' ' :: pendingCore r.slurm_job_id, r) :=
  schedule_round_trip M r H

/-- C5 witness: the amended round trip evaluated at a concrete record
    and message. -/
theorem c5_envelope_round_trip_witness :
    get_schedule_info_model true
        (encodeScheduleCommit (some "hi".data) none exR5c) =
      some ("hi".data ++ '\n' :: ' ' :: pendingCore exR5c.slurm_job_id,
        exR5c) :=
  c5_envelope_round_trip "hi".data exR5c (by decide)

end DataladSlurm
